import Mathlib

/-!
Shallow embedding of the secure ephemeral IRC server
(`src/server/{models,session,handler,facade,crypto}.rs`) and proofs about
the frozen claims.  Rust `HashMap`s are embedded as association lists,
`HashSet`s as duplicate-free string lists, `VecDeque` histories as lists
(front = oldest), `Instant` as a natural-number clock, and socket writes
as an emitted list of `(recipient-user-id, bytes)` frames.
-/

namespace IRC

/-- Lookup in an association list (embeds `HashMap::get`). -/
def lookupA {α : Type} : List (String × α) → String → Option α
  | [], _ => none
  | (k, v) :: rest, key => if k = key then some v else lookupA rest key

/-- Insert-or-replace in an association list (embeds `HashMap::insert`). -/
def insertA {α : Type} : List (String × α) → String → α → List (String × α)
  | [], key, v => [(key, v)]
  | (k, w) :: rest, key, v =>
      if k = key then (key, v) :: rest else (k, w) :: insertA rest key v

/-- Remove a key from an association list (embeds `HashMap::remove`). -/
def removeA {α : Type} : List (String × α) → String → List (String × α)
  | [], _ => []
  | (k, w) :: rest, key => if k = key then rest else (k, w) :: removeA rest key

/-- Update the value at a key, if present (embeds `HashMap::get_mut` followed
by an in-place mutation). -/
def updateA {α : Type} : List (String × α) → String → (α → α) → List (String × α)
  | [], _, _ => []
  | (k, v) :: rest, key, f =>
      if k = key then (k, f v) :: rest else (k, v) :: updateA rest key f

/-- Whether a key is present (embeds `HashMap::contains_key`). -/
def containsKeyA {α : Type} (m : List (String × α)) (key : String) : Bool :=
  (lookupA m key).isSome

/-- Set insertion (embeds `HashSet::insert`: no-op when already present). -/
def insertS (l : List String) (x : String) : List String :=
  if x ∈ l then l else l ++ [x]

/-- Set removal (embeds `HashSet::remove`). -/
def removeS (l : List String) (x : String) : List String :=
  l.filter (fun y => y ≠ x)

/-- One chat message (`models.rs::ChatMessage`).  The Rust `content : String`
and `encrypted : Vec<u8>` payloads are embedded as the lists of their byte
values, which is what secure deletion overwrites. -/
structure ChatMessage where
  sender : String
  content : List Nat
  timestamp : Nat
  encrypted : List Nat
deriving DecidableEq, Repr

/-- Split a character list at the first occurrence of a separator. -/
def splitOnceChar (sep : Char) : List Char → Option (List Char × List Char)
  | [] => none
  | c :: rest =>
      if c = sep then some ([], rest)
      else (splitOnceChar sep rest).map (fun p => (c :: p.1, p.2))

/-- Rust `command.splitn(3, ' ')`: split on the first two spaces only. -/
def splitn3 (s : String) : List String :=
  match splitOnceChar ' ' s.data with
  | none => [s]
  | some (a, rest1) =>
      match splitOnceChar ' ' rest1 with
      | none => [String.mk a, String.mk rest1]
      | some (b, rest2) => [String.mk a, String.mk b, String.mk rest2]

/-- ASCII uppercasing of one character (the command verbs are ASCII, so this
matches Rust `str::to_uppercase` on them). -/
def upChar (c : Char) : Char :=
  if 'a' ≤ c ∧ c ≤ 'z' then Char.ofNat (c.toNat - 32) else c

/-- Rust `parts[0].to_uppercase()` on the command verb. -/
def toUpperStr (s : String) : String :=
  String.mk (s.data.map upChar)

/-- Rust `target.starts_with('#')`. -/
def startsWithHash (t : String) : Bool :=
  match t.data with
  | [] => false
  | c :: _ => c == '#'

/-- Byte view of a Rust string (`content.as_bytes_mut` targets). -/
def strBytes (s : String) : List Nat :=
  s.data.map (fun c => c.toNat)

/-- Session record (`session.rs::Session`).  The 32-byte key is carried as a
byte list. -/
structure Session where
  id : String
  userId : String
  startedAt : Nat
  lastActivity : Nat
  encryptionKey : List Nat
  nonceCounter : Nat
deriving DecidableEq, Repr

/-- `Session::new`. -/
def Session.mk' (id userId : String) (key : List Nat) (now : Nat) : Session :=
  ⟨id, userId, now, now, key, 0⟩

/-- `Session::update_activity`. -/
def Session.updateActivity (s : Session) (now : Nat) : Session :=
  { s with lastActivity := now }

/-- User record (`models.rs::User`).  The optional `TcpStream` writer is
embedded as the boolean `hasStream`; actual writes appear as emitted frames. -/
structure User where
  id : String
  username : String
  profilePic : List Nat
  channels : List String
  hasStream : Bool
  session : Option Session
  messages : List ChatMessage
deriving DecidableEq, Repr

/-- Channel record (`models.rs::Channel`). -/
structure Channel where
  name : String
  topic : String
  users : List String
  messages : List ChatMessage
  createdAt : Nat
  lastActivity : Nat
deriving DecidableEq, Repr

/-- The shared directory (`handler.rs::ServerState`). -/
structure ServerState where
  users : List (String × User)
  channels : List (String × Channel)
  jwtSecret : String
  messageTtl : Nat
  sessionTimeout : Nat
deriving DecidableEq, Repr

/-- A socket write: recipient user id and the bytes written. -/
abbrev Frame := String × String

/-- The `while messages.len() > 100 { messages.pop_front(); }` loop that
bounds every history; the loop runs at most `l.length` times, carried here
as structural fuel so the function evaluates by reduction. -/
def popWhileLongAux : Nat → List ChatMessage → List ChatMessage
  | 0, l => l
  | n + 1, l => if l.length > 100 then popWhileLongAux n l.tail else l

def popWhileLong (l : List ChatMessage) : List ChatMessage :=
  popWhileLongAux l.length l

/-- Result of one handler invocation: the directory afterwards, the socket
writes in order, the messages whose storage was released during the call (in
the byte state they held at release), and the `Err` payload when the Rust
function returned `Err`. -/
structure HRes where
  state : ServerState
  frames : List Frame
  released : List ChatMessage
  err : Option String
deriving DecidableEq, Repr

/-- `MessageHandler::secure_delete_message`: overwrite the content bytes and
the encrypted bytes with zero, in place. -/
def secureDeleteMessage (m : ChatMessage) : ChatMessage :=
  { m with
    content := m.content.map (fun _ => 0),
    encrypted := m.encrypted.map (fun _ => 0) }

/-- `MessageHandler::store_channel_message`: push the message, touch
`last_activity`, then pop from the front while the history holds more than
100 entries.  The `encrypted` field is the `Vec::new()` placeholder. -/
def storeChannelMessage (s : ServerState) (channelName sender content : String)
    (now : Nat) : ServerState :=
  { s with
    channels := updateA s.channels channelName (fun ch =>
      { ch with
        messages := popWhileLong (ch.messages ++ [⟨sender, strBytes content, now, []⟩]),
        lastActivity := now }) }

/-- `MessageHandler::store_private_message`: append the message to the
sender's and then the recipient's history, bounding each at 100. -/
def storePrivateMessage (s : ServerState) (senderId recipientId content : String)
    (now : Nat) : ServerState :=
  let senderUsername :=
    match lookupA s.users senderId with
    | some u => u.username
    | none => "Unknown"
  let msg : ChatMessage := ⟨senderUsername, strBytes content, now, []⟩
  let s1 :=
    { s with
      users := updateA s.users senderId (fun u =>
        { u with messages := popWhileLong (u.messages ++ [msg]) }) }
  { s1 with
    users := updateA s1.users recipientId (fun u =>
      { u with messages := popWhileLong (u.messages ++ [msg]) }) }

/-- `MessageHandler::broadcast_to_channel`: one write per member of the
channel, skipping the excluded user, members missing from the user map, and
members without a stream. -/
def broadcastToChannel (s : ServerState) (channelName message : String)
    (excludeUser : Option String) : List Frame :=
  match lookupA s.channels channelName with
  | none => []
  | some ch =>
      ch.users.filterMap (fun uid =>
        if excludeUser = some uid then none
        else
          match lookupA s.users uid with
          | none => none
          | some u =>
              if u.hasStream then
                some (uid, ":" ++ channelName ++ " PRIVMSG " ++ u.username
                  ++ " :" ++ message ++ "\r\n")
              else none)

/-- `MessageHandler::find_user_by_username`: first user whose username
matches, in map order. -/
def findUserByUsername (s : ServerState) (username : String) : Option String :=
  (s.users.find? (fun p => p.2.username == username)).map (fun p => p.1)

/-- `MessageHandler::send_error`: one `ERROR :<reason>` line to the calling
user's own socket. -/
def sendError (s : ServerState) (uid message : String) : List Frame :=
  match lookupA s.users uid with
  | some u =>
      if u.hasStream then [(uid, "ERROR :" ++ message ++ "\r\n")] else []
  | none => []

/-- `MessageHandler::handle_join`. -/
def handleJoin (s : ServerState) (uid : String) (parts : List String)
    (now : Nat) : HRes :=
  if parts.length < 2 then
    ⟨s, sendError s uid "Not enough parameters for JOIN", [], none⟩
  else
    let channel := parts.getD 1 ""
    let s1 :=
      if containsKeyA s.channels channel then s
      else
        { s with channels := insertA s.channels channel ⟨channel, "", [], [], now, now⟩ }
    let s2 :=
      { s1 with
        channels := updateA s1.channels channel (fun ch =>
          { ch with users := insertS ch.users uid, lastActivity := now }) }
    let s3 :=
      { s2 with
        users := updateA s2.users uid (fun u =>
          { u with channels := insertS u.channels channel }) }
    let selfFrames : List Frame :=
      match lookupA s3.users uid with
      | some u =>
          if u.hasStream then [(uid, ":" ++ uid ++ " JOIN " ++ channel ++ "\r\n")] else []
      | none => []
    match lookupA s3.users uid with
    | none => ⟨s3, selfFrames, [], some "User not found"⟩
    | some u =>
        let joinMessage := "* " ++ u.username ++ " has joined " ++ channel
        let bcast := broadcastToChannel s3 channel joinMessage (some uid)
        let s4 := storeChannelMessage s3 channel "SYSTEM" joinMessage now
        ⟨s4, selfFrames ++ bcast, [], none⟩

/-- `MessageHandler::handle_leave` (PART). -/
def handleLeave (s : ServerState) (uid : String) (parts : List String)
    (now : Nat) : HRes :=
  if parts.length < 2 then
    ⟨s, sendError s uid "Not enough parameters for PART", [], none⟩
  else
    let channel := parts.getD 1 ""
    match lookupA s.users uid with
    | none => ⟨s, [], [], some "User not found"⟩
    | some u =>
        let username := u.username
        let res : ServerState × List Frame :=
          match lookupA s.channels channel with
          | none => (s, [])
          | some ch =>
              let s1 :=
                { s with
                  channels := updateA s.channels channel (fun c =>
                    { c with users := removeS c.users uid, lastActivity := now }) }
              if (removeS ch.users uid).isEmpty then
                ({ s1 with channels := removeA s1.channels channel }, [])
              else
                let leaveMessage := "* " ++ username ++ " has left " ++ channel
                let bcast := broadcastToChannel s1 channel leaveMessage none
                (storeChannelMessage s1 channel "SYSTEM" leaveMessage now, bcast)
        let s2 :=
          { res.1 with
            users := updateA res.1.users uid (fun u2 =>
              { u2 with channels := removeS u2.channels channel }) }
        let selfFrames : List Frame :=
          match lookupA s2.users uid with
          | some u2 =>
              if u2.hasStream then [(uid, ":" ++ uid ++ " PART " ++ channel ++ "\r\n")] else []
          | none => []
        ⟨s2, res.2 ++ selfFrames, [], none⟩

/-- Session-activity touch done inside `handle_privmsg` and at the top of
`handle_message`. -/
def touchActivity (s : ServerState) (uid : String) (now : Nat) : ServerState :=
  { s with
    users := updateA s.users uid (fun u =>
      match u.session with
      | some sess => { u with session := some (sess.updateActivity now) }
      | none => u) }

/-- `MessageHandler::handle_privmsg`. -/
def handlePrivmsg (s : ServerState) (uid : String) (parts : List String)
    (now : Nat) : HRes :=
  if parts.length < 3 then
    ⟨s, sendError s uid "Not enough parameters for PRIVMSG", [], none⟩
  else
    let target := parts.getD 1 ""
    let message := parts.getD 2 ""
    match lookupA s.users uid with
    | none => ⟨s, [], [], some "Sender not found"⟩
    | some sender =>
        let s1 := touchActivity s uid now
        if startsWithHash target then
          if target ∈ sender.channels then
            let formatted := "<" ++ sender.username ++ "> " ++ message
            let s2 := storeChannelMessage s1 target sender.username message now
            let bcast := broadcastToChannel s2 target formatted (some uid)
            ⟨s2, bcast, [], none⟩
          else
            ⟨s1, sendError s1 uid ("You are not in channel " ++ target), [], none⟩
        else
          match findUserByUsername s1 target with
          | none => ⟨s1, [], [], some ("User " ++ target ++ " not found")⟩
          | some recipientId =>
              let s2 := storePrivateMessage s1 uid recipientId message now
              let pmFrames : List Frame :=
                match lookupA s2.users recipientId with
                | some r =>
                    if r.hasStream then
                      [(recipientId, "PRIVMSG " ++ sender.username ++ " :" ++ message ++ "\r\n")]
                    else []
                | none => []
              ⟨s2, pmFrames, [], none⟩

/-- `MessageHandler::handle_list`: one write holding a 322 numeric per
channel and the closing 323. -/
def handleList (s : ServerState) (uid : String) : HRes :=
  let channelList :=
    String.join (s.channels.map (fun p =>
      ":server 322 " ++ uid ++ " " ++ p.1 ++ " " ++ toString p.2.users.length
        ++ " :" ++ p.2.topic ++ "\r\n"))
    ++ ":server 323 " ++ uid ++ " :End of LIST\r\n"
  let frames : List Frame :=
    match lookupA s.users uid with
    | some u => if u.hasStream then [(uid, channelList)] else []
    | none => []
  ⟨s, frames, [], none⟩

/-- `MessageHandler::handle_who`: one write holding a 352 numeric per member
and the closing 315. -/
def handleWho (s : ServerState) (uid : String) (parts : List String) : HRes :=
  if parts.length < 2 then
    ⟨s, sendError s uid "Not enough parameters for WHO", [], none⟩
  else
    let channel := parts.getD 1 ""
    match lookupA s.channels channel with
    | none => ⟨s, sendError s uid ("Channel " ++ channel ++ " not found"), [], none⟩
    | some ch =>
        let whoList :=
          String.join (ch.users.filterMap (fun mid =>
            (lookupA s.users mid).map (fun u =>
              ":server 352 " ++ uid ++ " " ++ channel ++ " " ++ u.username
                ++ " hostname server " ++ u.username ++ " H :0 " ++ u.username ++ "\r\n")))
          ++ ":server 315 " ++ uid ++ " " ++ channel ++ " :End of WHO list\r\n"
        let frames : List Frame :=
          match lookupA s.users uid with
          | some u => if u.hasStream then [(uid, whoList)] else []
          | none => []
        ⟨s, frames, [], none⟩

/-- `MessageHandler::disconnect_user`: remove the user from every joined
channel with a disconnect broadcast, clear (without zeroing) the private
history, and drop the user.  Returns the state, the frames, and the released
messages. -/
def disconnectUser (s : ServerState) (uid : String) :
    ServerState × List Frame × List ChatMessage :=
  match lookupA s.users uid with
  | none => ({ s with users := removeA s.users uid }, [], [])
  | some u =>
      let username := u.username
      let step := fun (acc : ServerState × List Frame) (cn : String) =>
        match lookupA acc.1.channels cn with
        | none => acc
        | some _ =>
            let s1 :=
              { acc.1 with
                channels := updateA acc.1.channels cn (fun c =>
                  { c with users := removeS c.users uid }) }
            let bcast := broadcastToChannel s1 cn ("* " ++ username ++ " has disconnected") none
            (s1, acc.2 ++ bcast)
      let r := u.channels.foldl step (s, [])
      let released :=
        match lookupA r.1.users uid with
        | some u2 => u2.messages
        | none => []
      let s2 :=
        { r.1 with
          users := updateA r.1.users uid (fun u2 => { u2 with messages := [] }) }
      ({ s2 with users := removeA s2.users uid }, r.2, released)

/-- Rust `str::contains` on string slices. -/
def containsSub (hay pat : String) : Bool :=
  decide (pat.data <:+: hay.data)

/-- `MessageHandler::handle_quit`: on `SECURE_DELETE`, zero-overwrite and
drain the private history and strip the sender's messages (without zeroing)
from every joined channel's history; then run `disconnect_user`. -/
def handleQuit (s : ServerState) (uid : String) (parts : List String) : HRes :=
  let sec := decide (parts.length > 1)
    && containsSub (parts.getD 1 "") "SECURE_DELETE"
  let pre : ServerState × List ChatMessage :=
    if sec then
      match lookupA s.users uid with
      | none => (s, [])
      | some u =>
          let drained := u.messages.map secureDeleteMessage
          let sA :=
            { s with
              users := updateA s.users uid (fun u2 => { u2 with messages := [] }) }
          let step := fun (acc : ServerState × List ChatMessage) (cn : String) =>
            match lookupA acc.1.channels cn with
            | none => acc
            | some ch =>
                let kept := ch.messages.filter (fun m => m.sender != u.username)
                let rem := ch.messages.filter (fun m => m.sender == u.username)
                ({ acc.1 with
                    channels := updateA acc.1.channels cn (fun c =>
                      { c with messages := kept }) },
                  acc.2 ++ rem)
          u.channels.foldl step (sA, drained)
    else (s, [])
  let d := disconnectUser pre.1 uid
  ⟨d.1, d.2.1, pre.2 ++ d.2.2, none⟩

/-- `MessageHandler::handle_secure_clear`: zero-overwrite and drain the
caller's private history, then confirm with one NOTICE line. -/
def handleSecureClear (s : ServerState) (uid : String) : HRes :=
  match lookupA s.users uid with
  | none => ⟨s, [], [], none⟩
  | some u =>
      let released := u.messages.map secureDeleteMessage
      let s1 :=
        { s with
          users := updateA s.users uid (fun u2 => { u2 with messages := [] }) }
      let frames : List Frame :=
        if u.hasStream then
          [(uid, "NOTICE :All your messages have been securely deleted\r\n")]
        else []
      ⟨s1, frames, released, none⟩

/-- `MessageHandler::handle_message`: split the command, touch the session
activity, and dispatch on the uppercased verb. -/
def handleMessage (s : ServerState) (uid command : String) (now : Nat) : HRes :=
  let parts := splitn3 command
  if parts.isEmpty then ⟨s, [], [], none⟩
  else
    let s0 := touchActivity s uid now
    match toUpperStr (parts.getD 0 "") with
    | "JOIN" => handleJoin s0 uid parts now
    | "PART" => handleLeave s0 uid parts now
    | "PRIVMSG" => handlePrivmsg s0 uid parts now
    | "LIST" => handleList s0 uid
    | "WHO" => handleWho s0 uid parts
    | "QUIT" => handleQuit s0 uid parts
    | "SECURECLEAR" => handleSecureClear s0 uid
    | _ => ⟨s0, sendError s0 uid ("Unknown command: " ++ parts.getD 0 ""), [], none⟩

/-! ### Token verification and the authentication phase (`facade.rs`) -/

/-- The claims deserialized from the token (`models.rs::TokenClaims`).
`profilePic` carries the outcome of `base64::decode` applied to the claim's
base64 string (the base64 crate is external to src/): `none` means the
string does not decode. -/
structure TokenClaims where
  sub : String
  username : String
  profilePic : Option (List Nat)
  exp : Nat
  iat : Nat
  nbf : Option Nat
  jti : Option String
deriving DecidableEq, Repr

/-- The first frame of a connection as the JWT library sees it: whether the
compact form parses, whether its HMAC-SHA256 signature matches the server
secret, and the claims it carries. -/
structure TokenInput where
  decodable : Bool
  signatureValid : Bool
  claims : TokenClaims
deriving DecidableEq, Repr

/-- Modelled from the spec: the `jsonwebtoken` crate's
`decode::<TokenClaims>` under `Validation::new(Algorithm::HS256)` (the crate
is outside src/).  That default validation has `validate_exp = true`,
`validate_nbf = false`, and a numeric leeway, so a token passes iff it
parses, the signature matches, and `exp` has not passed by more than the
leeway; `nbf` is never examined. -/
def jwtDecode (leeway now : Nat) (tok : TokenInput) : Except String TokenClaims :=
  if !tok.decodable then Except.error "InvalidToken"
  else if !tok.signatureValid then Except.error "InvalidSignature"
  else if tok.claims.exp + leeway < now then Except.error "ExpiredSignature"
  else Except.ok tok.claims

/-- The authentication and registration phase of
`IRCServerFacade::handle_connection` (facade.rs lines 130-197): token
validation, profile-picture decoding, session construction, and insertion of
the new user into the directory.  Returns the directory, the lines written
to the connecting socket, and the registered user id (`none` = aborted). -/
def authPhase (leeway : Nat) (tok : TokenInput) (sessionId : String)
    (encryptionKey : List Nat) (s : ServerState) (now : Nat) :
    ServerState × List String × Option String :=
  match jwtDecode leeway now tok with
  | Except.error e => (s, ["ERROR :Authentication failed: " ++ e ++ "\r\n"], none)
  | Except.ok claims =>
      match claims.profilePic with
      | none => (s, ["ERROR :Invalid profile picture data\r\n"], none)
      | some pic =>
          let sess := Session.mk' sessionId claims.sub encryptionKey now
          let user : User := ⟨claims.sub, claims.username, pic, [], true, some sess, []⟩
          ({ s with users := insertA s.users claims.sub user }, [], some claims.sub)

/-! ### The janitor (`facade.rs::cleanup_thread`) -/

/-- Retention predicate of the janitor:
`now.duration_since(msg.timestamp) < message_ttl` (Rust `duration_since`
saturates, as does Nat subtraction). -/
def freshEnough (now ttl : Nat) (m : ChatMessage) : Bool :=
  decide (now - m.timestamp < ttl)

/-- `IRCServerFacade::disconnect_user` (facade.rs): remove the user from
every joined channel, notify the remaining members, and drop the user record
together with its message history (no zeroing, no clearing).  The inline
per-member write loop emits the same frames as `broadcast_to_channel` with
no exclusion, the user having already been removed from the member set. -/
def fduStep (uid username : String) (acc : ServerState × List Frame) (cn : String) :
    ServerState × List Frame :=
  match lookupA acc.1.channels cn with
  | none => acc
  | some _ =>
      let s1 :=
        { acc.1 with
          channels := updateA acc.1.channels cn (fun c =>
            { c with users := removeS c.users uid }) }
      let bcast := broadcastToChannel s1 cn
        ("* " ++ username ++ " has been disconnected due to inactivity") none
      (s1, acc.2 ++ bcast)

def facadeDisconnectUser (s : ServerState) (uid : String) :
    ServerState × List Frame × List ChatMessage :=
  match lookupA s.users uid with
  | none => ({ s with users := removeA s.users uid }, [], [])
  | some u =>
      let r := u.channels.foldl (fduStep uid u.username) (s, [])
      let released :=
        match lookupA r.1.users uid with
        | some u2 => u2.messages
        | none => []
      ({ r.1 with users := removeA r.1.users uid }, r.2, released)

/-- The per-user body of the janitor's inactivity-disconnect loop: the final
NOTICE followed by `IRCServerFacade::disconnect_user`. -/
def cleanupDiscStep (acc : ServerState × List Frame × List ChatMessage)
    (uid : String) : ServerState × List Frame × List ChatMessage :=
  let noticeFrames : List Frame :=
    match lookupA acc.1.users uid with
    | some u =>
        if u.hasStream then
          [(uid, "NOTICE :SECURITY: You have been disconnected due to inactivity. All messages have been deleted.\r\n")]
        else []
    | none => []
  let d := facadeDisconnectUser acc.1 uid
  (d.1, acc.2.1 ++ noticeFrames ++ d.2.1, acc.2.2 ++ d.2.2)

/-- One pass of `IRCServerFacade::cleanup_thread`, everything after the
60-second sleep: sweep expired channel messages (notifying members — note
the notice format string of facade.rs line 379 carries no CRLF), sweep
expired private messages (notice with CRLF), disconnect inactive sessions,
and reap long-empty channels.  Returns the directory, the frames written,
and the released messages in the byte state they held at release. -/
def cleanupPass (s : ServerState) (now : Nat) :
    ServerState × List Frame × List ChatMessage :=
  let ttl := s.messageTtl
  let timeout := s.sessionTimeout
  let newChannels := s.channels.map (fun (p : String × Channel) =>
    (p.1, { p.2 with messages := p.2.messages.filter (freshEnough now ttl) }))
  let chanFrames := s.channels.foldl (fun (acc : List Frame) (p : String × Channel) =>
    let removed := (p.2.messages.filter (fun m => !freshEnough now ttl m)).length
    if removed > 0 then
      acc ++ p.2.users.filterMap (fun uid =>
        match lookupA s.users uid with
        | some u =>
            if u.hasStream then
              some (uid, "NOTICE :SECURITY: " ++ toString removed
                ++ " messages have been automatically deleted")
            else none
        | none => none)
    else acc) []
  let chanReleased := s.channels.foldl
    (fun (acc : List ChatMessage) (p : String × Channel) =>
      acc ++ p.2.messages.filter (fun m => !freshEnough now ttl m)) []
  let s1 := { s with channels := newChannels }
  let userFrames := s1.users.foldl (fun (acc : List Frame) (p : String × User) =>
    let removed := (p.2.messages.filter (fun m => !freshEnough now ttl m)).length
    if removed > 0 ∧ p.2.hasStream then
      acc ++ [(p.1, "NOTICE :SECURITY: " ++ toString removed
        ++ " private messages have been automatically deleted\r\n")]
    else acc) []
  let userReleased := s1.users.foldl
    (fun (acc : List ChatMessage) (p : String × User) =>
      acc ++ p.2.messages.filter (fun m => !freshEnough now ttl m)) []
  let s2 :=
    { s1 with
      users := s1.users.map (fun (p : String × User) =>
        (p.1, { p.2 with messages := p.2.messages.filter (freshEnough now ttl) })) }
  let toDisconnect := (s2.users.filter (fun (p : String × User) =>
    match p.2.session with
    | some sess => decide (now - sess.lastActivity > timeout)
    | none => false)).map Prod.fst
  let r := toDisconnect.foldl cleanupDiscStep (s2, [], [])
  let reapPred := fun (p : String × Channel) =>
    p.2.users.isEmpty && decide (now - p.2.lastActivity > 86400)
  let reapedMessages := (r.1.channels.filter reapPred).foldl
    (fun (acc : List ChatMessage) (p : String × Channel) => acc ++ p.2.messages) []
  let s3 := { r.1 with channels := r.1.channels.filter (fun p => !reapPred p) }
  (s3, chanFrames ++ userFrames ++ r.2.1,
    chanReleased ++ userReleased ++ r.2.2 ++ reapedMessages)

/-! ### The AEAD codec (`crypto.rs`) -/

/-- Big-endian bytes of a `u64` (`u64::to_be_bytes`). -/
def toBeBytes8 (n : Nat) : List Nat :=
  (List.range 8).map (fun i => n / 256 ^ (7 - i) % 256)

/-- `CounterNonceSequence::advance`: the 96-bit nonce is 4 zero bytes
followed by the 8-byte big-endian counter. -/
def nonceBytes (counter : Nat) : List Nat :=
  [0, 0, 0, 0] ++ toBeBytes8 (counter % 2 ^ 64)

/-- Modelled from the spec: the keystream of ring's AES-256-GCM (the AEAD
primitive is outside src/ and out of scope there); a concrete byte stream
determined by key, nonce, and position. -/
def ksByte (key nonce : List Nat) (i : Nat) : Nat :=
  (key.foldl (fun a b => (a * 131 + b) % 65536) 7
    + nonce.foldl (fun a b => (a * 131 + b) % 65536) 11 * 3 + i * 17) % 256

/-- CTR-style transform: XOR each byte with the keystream at its position.
Applying it twice restores the input. -/
def ctrXor (key nonce : List Nat) : Nat → List Nat → List Nat
  | _, [] => []
  | i, b :: rest => (b ^^^ ksByte key nonce i) :: ctrXor key nonce (i + 1) rest

/-- Modelled from the spec: the 16-byte authentication tag of ring's
AES-256-GCM, recomputable from key, nonce, and ciphertext (AAD is empty in
all call sites). -/
def gcmTag (key nonce ct : List Nat) : List Nat :=
  let h := (key ++ nonce ++ ct).foldl (fun a b => (a * 257 + b + 1) % 65521) 5
  (List.range 16).map (fun i => (h + i * 31) % 256)

/-- Modelled from the spec: `seal_in_place_append_tag` — ciphertext followed
by the 16-byte tag. -/
def gcmSeal (key nonce pt : List Nat) : List Nat :=
  let ct := ctrXor key nonce 0 pt
  ct ++ gcmTag key nonce ct

/-- Modelled from the spec: `open_in_place` — split off the trailing tag,
verify it, and undo the CTR transform. -/
def gcmOpen (key nonce ctAndTag : List Nat) : Option (List Nat) :=
  if ctAndTag.length < 16 then none
  else
    let n := ctAndTag.length - 16
    let ct := ctAndTag.take n
    let tag := ctAndTag.drop n
    if gcmTag key nonce ct = tag then some (ctrXor key nonce 0 ct) else none

/-- `Encryptor::encrypt`: build the key (rejecting a wrong-length key as
`UnboundKey::new` does), build the counter nonce, seal. -/
def Encryptor.encrypt (key : List Nat) (counter : Nat) (message : List Nat) :
    Except String (List Nat) :=
  if key.length ≠ 32 then Except.error "Failed to create encryption key"
  else Except.ok (gcmSeal key (nonceBytes counter) message)

/-- `Encryptor::decrypt`: reject ciphertexts shorter than the tag, rebuild
the key, open with the counter nonce. -/
def Encryptor.decrypt (key : List Nat) (counter : Nat) (ciphertext : List Nat) :
    Except String (List Nat) :=
  if ciphertext.length < 16 then Except.error "Ciphertext too short"
  else if key.length ≠ 32 then Except.error "Failed to create decryption key"
  else
    match gcmOpen key (nonceBytes counter) ciphertext with
    | some pt => Except.ok pt
    | none => Except.error "Decryption failed"

/-- Concrete directory used by several witnesses: users `a` (alice) and `b`
(bob), both with a stream, channel `#c` with both as members. -/
def sAB : ServerState :=
  { users :=
      [("a", ⟨"a", "alice", [], ["#c"], true, some ⟨"s1", "a", 0, 0, [], 0⟩, []⟩),
       ("b", ⟨"b", "bob", [], ["#c"], true, some ⟨"s2", "b", 0, 0, [], 0⟩, []⟩)],
    channels := [("#c", ⟨"#c", "", ["a", "b"], [], 0, 0⟩)],
    jwtSecret := "secret",
    messageTtl := 3600,
    sessionTimeout := 3600 }

/-! ### Claim C2 — membership symmetry of JOIN and PART -/

/-- Directory invariant 1: a user id is in a channel's member set iff the
channel's name is in that user's channel set. -/
def MembershipSym (s : ServerState) : Prop :=
  ∀ uid u cn c, lookupA s.users uid = some u → lookupA s.channels cn = some c →
    (uid ∈ c.users ↔ cn ∈ u.channels)

/-- Directory invariant 2: every channel name referenced by a user exists. -/
def ChannelRefsValid (s : ServerState) : Prop :=
  ∀ uid u, lookupA s.users uid = some u →
    ∀ cn ∈ u.channels, (lookupA s.channels cn).isSome = true

/-- The channel map has no duplicate keys (a `HashMap` fact). -/
def ChannelsKeysNodup (s : ServerState) : Prop :=
  (s.channels.map Prod.fst).Nodup

/-- Concrete directory: user `a` with one stored private message. -/
def sC8 : ServerState :=
  { users :=
      [("a", ⟨"a", "alice", [], [], true, none, [ChatMessage.mk "bob" [104, 105] 0 [7, 8]]⟩)],
    channels := [],
    jwtSecret := "secret",
    messageTtl := 3600,
    sessionTimeout := 3600 }

/-! ### Claims C1 and C9 — janitor destruction paths, concrete runs -/

/-- Concrete directory for the C1 check: channel `#c` holds one expired
message with live bytes, its member `a` also holds one expired private
message. -/
def sC1 : ServerState :=
  { users :=
      [("a", ⟨"a", "alice", [], ["#c"], true, none,
        [ChatMessage.mk "bob" [104] 0 [9]]⟩)],
    channels :=
      [("#c", ⟨"#c", "", ["a"], [ChatMessage.mk "alice" [104, 105] 0 [7]], 0, 0⟩)],
    jwtSecret := "secret",
    messageTtl := 10,
    sessionTimeout := 1000 }

/-- Concrete directory for the C9 check: channel `#c` with member `b` and
one expired message. -/
def sC9 : ServerState :=
  { users := [("b", ⟨"b", "bob", [], ["#c"], true, none, []⟩)],
    channels :=
      [("#c", ⟨"#c", "", ["b"], [ChatMessage.mk "alice" [104] 0 []], 0, 50⟩)],
    jwtSecret := "secret",
    messageTtl := 10,
    sessionTimeout := 1000 }

/-! ### Claim C5 — the janitor retains exactly the young messages -/

/-- Between two directory states: every surviving channel existed before
with the same message list. -/
def ChanMsgPres (a b : ServerState) : Prop :=
  ∀ cn c2, lookupA b.channels cn = some c2 →
    ∃ c1, lookupA a.channels cn = some c1 ∧ c2.messages = c1.messages

/-- Between two directory states: every surviving user entry is unchanged. -/
def UserEntryPres (a b : ServerState) : Prop :=
  ∀ uid u2, lookupA b.users uid = some u2 → lookupA a.users uid = some u2

/-! ### Claims C3 and C4 — authentication failures and claim validation -/

/-- An empty directory. -/
def sEmpty : ServerState := ⟨[], [], "secret", 3600, 3600⟩

/-- A first frame that parses and is well signed but whose profile picture
does not base64-decode. -/
def tokBadPic : TokenInput :=
  ⟨true, true, ⟨"u1", "alice", none, 2000, 0, none, none⟩⟩

/-- A first frame with an invalid signature. -/
def tokBadSig : TokenInput :=
  ⟨true, false, ⟨"u1", "alice", some [1], 2000, 0, none, none⟩⟩

/-- A first frame whose `exp` equals `now` (not strictly in the future) and
whose `nbf` lies strictly in the future. -/
def tokC4 : TokenInput :=
  ⟨true, true, ⟨"u9", "nina", some [1], 1000, 0, some 2000, none⟩⟩

theorem popWhileLongAux_eq_drop (n : Nat) (l : List ChatMessage)
    (h : l.length ≤ n) : popWhileLongAux n l = l.drop (l.length - 100) := by
  induction n generalizing l with
  | zero =>
      have : l = [] := List.length_eq_zero.mp (by omega)
      subst this
      rfl
  | succ n ih =>
      by_cases hlong : l.length > 100
      · rw [popWhileLongAux, if_pos hlong]
        cases l with
        | nil => simp at hlong
        | cons a t =>
            simp only [List.tail_cons]
            rw [ih t (by simp at h; omega)]
            simp only [List.length_cons]
            have h2 : t.length ≥ 100 := by
              simp at hlong; omega
            have e : t.length + 1 - 100 = (t.length - 100) + 1 := by omega
            rw [e]
            simp [List.drop_succ_cons]
      · rw [popWhileLongAux, if_neg hlong]
        have : l.length - 100 = 0 := by omega
        simp [this]

theorem popWhileLong_eq_drop (l : List ChatMessage) :
    popWhileLong l = l.drop (l.length - 100) :=
  popWhileLongAux_eq_drop l.length l (Nat.le_refl _)

theorem popWhileLong_length_le (l : List ChatMessage) :
    (popWhileLong l).length ≤ 100 := by
  rw [popWhileLong_eq_drop]
  simp only [List.length_drop]
  omega

/-! ### Association-list lemmas -/

theorem lookupA_updateA {α : Type} (m : List (String × α)) (k : String) (f : α → α)
    (k2 : String) :
    lookupA (updateA m k f) k2 =
      if k2 = k then (lookupA m k).map f else lookupA m k2 := by
  induction m with
  | nil => simp [updateA, lookupA]
  | cons hd tl ih =>
      obtain ⟨k1, v⟩ := hd
      by_cases h1 : k1 = k
      · subst h1
        by_cases h2 : k1 = k2
        · subst h2
          simp [updateA, lookupA]
        · have h2' : ¬ k2 = k1 := Ne.symm h2
          simp [updateA, lookupA, h2, h2']
      · by_cases h2 : k1 = k2
        · subst h2
          have h1' : ¬ k1 = k := h1
          simp [updateA, lookupA, h1', lookupA, h1]
        · have h2' : ¬ k2 = k1 := Ne.symm h2
          simp [updateA, lookupA, h1, h2, h2', ih]

theorem lookupA_insertA {α : Type} (m : List (String × α)) (k : String) (v : α)
    (k2 : String) :
    lookupA (insertA m k v) k2 = if k2 = k then some v else lookupA m k2 := by
  induction m with
  | nil =>
      by_cases h : k = k2
      · subst h; simp [insertA, lookupA]
      · have h' : ¬ k2 = k := Ne.symm h
        simp [insertA, lookupA, h, h']
  | cons hd tl ih =>
      obtain ⟨k1, w⟩ := hd
      by_cases h1 : k1 = k
      · subst h1
        by_cases h2 : k1 = k2
        · subst h2
          simp [insertA, lookupA]
        · have h2' : ¬ k2 = k1 := Ne.symm h2
          simp [insertA, lookupA, h2, h2']
      · by_cases h2 : k1 = k2
        · subst h2
          have h1' : ¬ k1 = k := h1
          simp [insertA, lookupA, h1, h1']
        · have h2' : ¬ k2 = k1 := Ne.symm h2
          simp [insertA, lookupA, h1, h2, h2', ih]

theorem removeA_sublist {α : Type} (m : List (String × α)) (k : String) :
    List.Sublist (removeA m k) m := by
  induction m with
  | nil => simp [removeA]
  | cons hd tl ih =>
      obtain ⟨k1, v⟩ := hd
      by_cases h1 : k1 = k
      · simp only [removeA, if_pos h1]
        exact List.sublist_cons_self _ _
      · simp only [removeA, if_neg h1]
        exact List.Sublist.cons₂ _ ih

theorem lookupA_none_of_not_mem_keys {α : Type} (m : List (String × α)) (k : String)
    (h : k ∉ m.map Prod.fst) : lookupA m k = none := by
  induction m with
  | nil => simp [lookupA]
  | cons hd tl ih =>
      obtain ⟨k1, v⟩ := hd
      simp only [List.map_cons, List.mem_cons] at h
      push_neg at h
      have h1 : ¬ k1 = k := fun hh => h.1 hh.symm
      simp only [lookupA, if_neg h1]
      exact ih h.2

theorem lookupA_removeA {α : Type} (m : List (String × α)) (k : String)
    (hnd : (m.map Prod.fst).Nodup) (k2 : String) :
    lookupA (removeA m k) k2 = if k2 = k then none else lookupA m k2 := by
  induction m with
  | nil => simp [removeA, lookupA]
  | cons hd tl ih =>
      obtain ⟨k1, v⟩ := hd
      simp only [List.map_cons, List.nodup_cons] at hnd
      by_cases h1 : k1 = k
      · subst h1
        by_cases h2 : k2 = k1
        · subst h2
          simp only [removeA, if_pos rfl, if_pos rfl]
          exact lookupA_none_of_not_mem_keys tl k2 hnd.1
        · have h2' : ¬ k1 = k2 := Ne.symm h2
          simp [removeA, lookupA, h2, h2']
      · by_cases h2 : k2 = k1
        · subst h2
          simp [removeA, lookupA, h1]
        · have h2' : ¬ k1 = k2 := Ne.symm h2
          simp only [removeA, if_neg h1, lookupA, if_neg h2']
          exact ih hnd.2

theorem keys_updateA {α : Type} (m : List (String × α)) (k : String) (f : α → α) :
    (updateA m k f).map Prod.fst = m.map Prod.fst := by
  induction m with
  | nil => simp [updateA]
  | cons hd tl ih =>
      obtain ⟨k1, v⟩ := hd
      by_cases h1 : k1 = k
      · simp [updateA, h1]
      · simp [updateA, h1, ih]

theorem keys_insertA_mem {α : Type} (m : List (String × α)) (k : String) (v : α)
    (x : String) (hx : x ∈ (insertA m k v).map Prod.fst) :
    x ∈ m.map Prod.fst ∨ x = k := by
  induction m with
  | nil =>
      simp only [insertA, List.map_cons, List.map_nil, List.mem_singleton] at hx
      exact Or.inr hx
  | cons hd tl ih =>
      obtain ⟨k1, w⟩ := hd
      by_cases h1 : k1 = k
      · simp only [insertA, if_pos h1, List.map_cons, List.mem_cons] at hx
        rcases hx with h | h
        · exact Or.inr h
        · exact Or.inl (List.mem_cons_of_mem _ h)
      · simp only [insertA, if_neg h1, List.map_cons, List.mem_cons] at hx
        rcases hx with h | h
        · exact Or.inl (h ▸ List.mem_cons_self _ _)
        · rcases ih h with h2 | h2
          · exact Or.inl (List.mem_cons_of_mem _ h2)
          · exact Or.inr h2

theorem nodupKeys_insertA {α : Type} (m : List (String × α)) (k : String) (v : α)
    (hnd : (m.map Prod.fst).Nodup) : ((insertA m k v).map Prod.fst).Nodup := by
  induction m with
  | nil => simp [insertA]
  | cons hd tl ih =>
      obtain ⟨k1, w⟩ := hd
      simp only [List.map_cons, List.nodup_cons] at hnd
      by_cases h1 : k1 = k
      · simp only [insertA, if_pos h1, List.map_cons, List.nodup_cons]
        exact ⟨h1 ▸ hnd.1, hnd.2⟩
      · simp only [insertA, if_neg h1, List.map_cons, List.nodup_cons]
        refine ⟨fun hmem => ?_, ih hnd.2⟩
        rcases keys_insertA_mem tl k v k1 hmem with h | h
        · exact hnd.1 h
        · exact h1 h

theorem nodupKeys_removeA {α : Type} (m : List (String × α)) (k : String)
    (hnd : (m.map Prod.fst).Nodup) : ((removeA m k).map Prod.fst).Nodup :=
  ((removeA_sublist m k).map Prod.fst).nodup hnd

theorem nodupKeys_updateA {α : Type} (m : List (String × α)) (k : String) (f : α → α)
    (hnd : (m.map Prod.fst).Nodup) : ((updateA m k f).map Prod.fst).Nodup := by
  rw [keys_updateA]; exact hnd

/-! ### Claim C6 — bounded FIFO histories -/

/-- Claim C6: every channel history and every private history is a bounded
FIFO of cap 100: after `store_channel_message` the channel's history, and
after `store_private_message` both parties' histories, hold the old messages
followed by the new one with exactly the oldest entries dropped from the
front whenever the cap would be exceeded, and never exceed length 100. -/
theorem history_bounded_fifo_cap_100
    (s : ServerState) (cn sender content sid rid pcontent : String) (now : Nat)
    (c : Channel) (hc : lookupA s.channels cn = some c)
    (us : User) (hus : lookupA s.users sid = some us)
    (ur : User) (hur : lookupA s.users rid = some ur)
    (hne : sid ≠ rid) :
    (∃ c2, lookupA (storeChannelMessage s cn sender content now).channels cn = some c2 ∧
      c2.messages = (c.messages ++ [ChatMessage.mk sender (strBytes content) now []]).drop
        (c.messages.length + 1 - 100) ∧
      c2.messages.length ≤ 100) ∧
    (∃ u2, lookupA (storePrivateMessage s sid rid pcontent now).users sid = some u2 ∧
      u2.messages = (us.messages ++ [ChatMessage.mk us.username (strBytes pcontent) now []]).drop
        (us.messages.length + 1 - 100) ∧
      u2.messages.length ≤ 100) ∧
    (∃ u2, lookupA (storePrivateMessage s sid rid pcontent now).users rid = some u2 ∧
      u2.messages = (ur.messages ++ [ChatMessage.mk us.username (strBytes pcontent) now []]).drop
        (ur.messages.length + 1 - 100) ∧
      u2.messages.length ≤ 100) := by
  have hdrop : ∀ (l : List ChatMessage) (m : ChatMessage),
      popWhileLong (l ++ [m]) = (l ++ [m]).drop (l.length + 1 - 100) := by
    intro l m
    rw [popWhileLong_eq_drop]
    simp [List.length_append]
  have hchan : lookupA (storeChannelMessage s cn sender content now).channels cn
      = some { c with
          messages := popWhileLong (c.messages ++ [ChatMessage.mk sender (strBytes content) now []]),
          lastActivity := now } := by
    show lookupA (updateA s.channels cn _) cn = _
    rw [lookupA_updateA, if_pos rfl, hc]
    rfl
  have hpriv : (storePrivateMessage s sid rid pcontent now).users
      = updateA (updateA s.users sid (fun u =>
          { u with messages := popWhileLong (u.messages
              ++ [ChatMessage.mk us.username (strBytes pcontent) now []]) })) rid (fun u =>
          { u with messages := popWhileLong (u.messages
              ++ [ChatMessage.mk us.username (strBytes pcontent) now []]) }) := by
    simp only [storePrivateMessage, hus]
  have hsid : lookupA (storePrivateMessage s sid rid pcontent now).users sid
      = some { us with messages := popWhileLong (us.messages
          ++ [ChatMessage.mk us.username (strBytes pcontent) now []]) } := by
    rw [hpriv, lookupA_updateA, if_neg hne, lookupA_updateA, if_pos rfl, hus]
    rfl
  have hrid : lookupA (storePrivateMessage s sid rid pcontent now).users rid
      = some { ur with messages := popWhileLong (ur.messages
          ++ [ChatMessage.mk us.username (strBytes pcontent) now []]) } := by
    rw [hpriv, lookupA_updateA, if_pos rfl, lookupA_updateA, if_neg (Ne.symm hne), hur]
    rfl
  exact ⟨⟨_, hchan, hdrop c.messages _, hdrop c.messages _ ▸ popWhileLong_length_le _⟩,
    ⟨_, hsid, hdrop us.messages _, hdrop us.messages _ ▸ popWhileLong_length_le _⟩,
    ⟨_, hrid, hdrop ur.messages _, hdrop ur.messages _ ▸ popWhileLong_length_le _⟩⟩

theorem history_bounded_fifo_cap_100_witness :
    ∃ c2, lookupA (storeChannelMessage sAB "#c" "alice" "hi" 5).channels "#c" = some c2 ∧
      c2.messages = ([] ++ [ChatMessage.mk "alice" (strBytes "hi") 5 []]).drop (0 + 1 - 100) ∧
      c2.messages.length ≤ 100 :=
  (history_bounded_fifo_cap_100 sAB "#c" "alice" "hi" "a" "b" "hello" 5
    ⟨"#c", "", ["a", "b"], [], 0, 0⟩ rfl
    ⟨"a", "alice", [], ["#c"], true, some ⟨"s1", "a", 0, 0, [], 0⟩, []⟩ rfl
    ⟨"b", "bob", [], ["#c"], true, some ⟨"s2", "b", 0, 0, [], 0⟩, []⟩ rfl
    (by decide)).1

/-! ### Claim C10 — AEAD roundtrip -/

theorem ctrXor_length (key nonce : List Nat) :
    ∀ (i : Nat) (l : List Nat), (ctrXor key nonce i l).length = l.length := by
  intro i l
  induction l generalizing i with
  | nil => rfl
  | cons b rest ih => simp [ctrXor, ih]

theorem ctrXor_ctrXor (key nonce : List Nat) :
    ∀ (i : Nat) (l : List Nat), ctrXor key nonce i (ctrXor key nonce i l) = l := by
  intro i l
  induction l generalizing i with
  | nil => rfl
  | cons b rest ih =>
      simp only [ctrXor, List.cons.injEq]
      refine ⟨?_, ih (i + 1)⟩
      rw [Nat.xor_assoc, Nat.xor_self, Nat.xor_zero]

theorem gcmTag_length (key nonce ct : List Nat) : (gcmTag key nonce ct).length = 16 := by
  simp [gcmTag]

theorem gcmOpen_gcmSeal (key nonce pt : List Nat) :
    gcmOpen key nonce (gcmSeal key nonce pt) = some pt := by
  have hctlen : (ctrXor key nonce 0 pt).length = pt.length := ctrXor_length key nonce 0 pt
  have htaglen : (gcmTag key nonce (ctrXor key nonce 0 pt)).length = 16 :=
    gcmTag_length key nonce _
  have hlen : (gcmSeal key nonce pt).length = pt.length + 16 := by
    simp [gcmSeal, List.length_append, hctlen, htaglen]
  have etake : (gcmSeal key nonce pt).take ((gcmSeal key nonce pt).length - 16)
      = ctrXor key nonce 0 pt := by
    have e : (gcmSeal key nonce pt).length - 16 = (ctrXor key nonce 0 pt).length := by
      omega
    rw [e]
    exact List.take_left _ _
  have edrop : (gcmSeal key nonce pt).drop ((gcmSeal key nonce pt).length - 16)
      = gcmTag key nonce (ctrXor key nonce 0 pt) := by
    have e : (gcmSeal key nonce pt).length - 16 = (ctrXor key nonce 0 pt).length := by
      omega
    rw [e]
    exact List.drop_left _ _
  unfold gcmOpen
  rw [if_neg (by omega)]
  simp [etake, edrop, ctrXor_ctrXor]

/-- Claim C10: for every 32-byte key, every counter, and every plaintext,
decrypting with the same key and counter the ciphertext produced by
`Encryptor::encrypt` returns the original plaintext. -/
theorem encrypt_decrypt_roundtrip (key : List Nat) (counter : Nat) (msg : List Nat)
    (hkey : key.length = 32) (ct : List Nat)
    (henc : Encryptor.encrypt key counter msg = Except.ok ct) :
    Encryptor.decrypt key counter ct = Except.ok msg := by
  have hk2 : ¬ key.length ≠ 32 := fun h => h hkey
  unfold Encryptor.encrypt at henc
  rw [if_neg hk2] at henc
  cases henc
  have hctlen : (ctrXor key (nonceBytes counter) 0 msg).length = msg.length :=
    ctrXor_length _ _ 0 msg
  have htaglen : (gcmTag key (nonceBytes counter) (ctrXor key (nonceBytes counter) 0 msg)).length
      = 16 := gcmTag_length _ _ _
  have hlen : (gcmSeal key (nonceBytes counter) msg).length = msg.length + 16 := by
    simp [gcmSeal, List.length_append, hctlen, htaglen]
  unfold Encryptor.decrypt
  rw [if_neg (by omega), if_neg hk2, gcmOpen_gcmSeal]

theorem encrypt_decrypt_roundtrip_witness :
    Encryptor.decrypt (List.replicate 32 7) 3
      (gcmSeal (List.replicate 32 7) (nonceBytes 3) [1, 2, 3]) = Except.ok [1, 2, 3] :=
  encrypt_decrypt_roundtrip (List.replicate 32 7) 3 [1, 2, 3] (by decide) _
    (by rw [Encryptor.encrypt, if_neg (by decide)])

theorem mem_insertS (l : List String) (x y : String) :
    x ∈ insertS l y ↔ x ∈ l ∨ x = y := by
  by_cases h : y ∈ l
  · simp only [insertS, if_pos h]
    constructor
    · exact Or.inl
    · rintro (hx | rfl)
      · exact hx
      · exact h
  · simp [insertS, if_neg h, List.mem_append]

theorem mem_removeS (l : List String) (x y : String) :
    x ∈ removeS l y ↔ x ∈ l ∧ x ≠ y := by
  simp [removeS, List.mem_filter]

/-- Symmetry and reference validity survive any state whose user map gained
`channel` in `uid`'s channel set and whose channel map gained `uid` in
`channel`'s member set (the shape `handle_join` produces). -/
theorem symRef_after_join_shape (s : ServerState) (uid channel : String)
    (t : ServerState) (cUp : Channel)
    (hSym : MembershipSym s) (hRef : ChannelRefsValid s)
    (husers : ∀ uid2, lookupA t.users uid2
        = if uid2 = uid then (lookupA s.users uid).map (fun u =>
            { u with channels := insertS u.channels channel })
          else lookupA s.users uid2)
    (hchans : ∀ cn2, lookupA t.channels cn2
        = if cn2 = channel then some cUp else lookupA s.channels cn2)
    (hcup : ∀ uid2, uid2 ∈ cUp.users ↔
        (∃ c0, lookupA s.channels channel = some c0 ∧ uid2 ∈ c0.users) ∨ uid2 = uid) :
    MembershipSym t ∧ ChannelRefsValid t := by
  constructor
  · intro uid2 u2 cn2 c2 hu2 hc2
    rw [husers] at hu2
    rw [hchans] at hc2
    by_cases e2 : cn2 = channel
    · rw [if_pos e2] at hc2
      obtain rfl : cUp = c2 := by injection hc2
      subst e2
      by_cases e1 : uid2 = uid
      · rw [if_pos e1] at hu2
        subst e1
        cases hou : lookupA s.users uid2 with
        | none => rw [hou] at hu2; exact absurd hu2 (by simp)
        | some u0 =>
            rw [hou] at hu2
            obtain rfl : { u0 with channels := insertS u0.channels cn2 } = u2 := by
              injection hu2
            simp [hcup, mem_insertS]
      · rw [if_neg e1] at hu2
        rw [hcup]
        constructor
        · rintro (⟨c0, hc0, hmem⟩ | rfl)
          · exact (hSym uid2 u2 cn2 c0 hu2 hc0).1 hmem
          · exact absurd rfl e1
        · intro hmem
          cases hoc : lookupA s.channels cn2 with
          | none =>
              have := hRef uid2 u2 hu2 cn2 hmem
              rw [hoc] at this
              exact absurd this (by simp)
          | some c0 =>
              exact Or.inl ⟨c0, rfl, (hSym uid2 u2 cn2 c0 hu2 hoc).2 hmem⟩
    · rw [if_neg e2] at hc2
      by_cases e1 : uid2 = uid
      · rw [if_pos e1] at hu2
        subst e1
        cases hou : lookupA s.users uid2 with
        | none => rw [hou] at hu2; exact absurd hu2 (by simp)
        | some u0 =>
            rw [hou] at hu2
            obtain rfl : { u0 with channels := insertS u0.channels channel } = u2 := by
              injection hu2
            simp only [mem_insertS]
            rw [hSym uid2 u0 cn2 c2 hou hc2]
            constructor
            · exact Or.inl
            · rintro (hx | rfl)
              · exact hx
              · exact absurd rfl e2
      · rw [if_neg e1] at hu2
        exact hSym uid2 u2 cn2 c2 hu2 hc2
  · intro uid2 u2 hu2 cn2 hmem
    rw [husers] at hu2
    by_cases e1 : uid2 = uid
    · rw [if_pos e1] at hu2
      cases hou : lookupA s.users uid with
      | none => rw [hou] at hu2; exact absurd hu2 (by simp)
      | some u0 =>
          rw [hou] at hu2
          obtain rfl : { u0 with channels := insertS u0.channels channel } = u2 := by
            injection hu2
          rw [mem_insertS] at hmem
          rcases hmem with hx | rfl
          · by_cases e2 : cn2 = channel
            · rw [hchans, if_pos e2]; rfl
            · rw [hchans, if_neg e2]
              exact hRef uid u0 hou cn2 hx
          · rw [hchans, if_pos rfl]; rfl
    · rw [if_neg e1] at hu2
      by_cases e2 : cn2 = channel
      · rw [hchans, if_pos e2]; rfl
      · rw [hchans, if_neg e2]
        exact hRef uid2 u2 hu2 cn2 hmem

/-- Symmetry and reference validity survive any state whose user map lost
`channel` from `uid`'s channel set and whose channel map lost `uid` from
`channel`'s member set, the channel surviving (the non-empty PART shape). -/
theorem symRef_after_leave_shape (s : ServerState) (uid channel : String)
    (t : ServerState) (cUp : Channel)
    (hSym : MembershipSym s) (hRef : ChannelRefsValid s)
    (husers : ∀ uid2, lookupA t.users uid2
        = if uid2 = uid then (lookupA s.users uid).map (fun u =>
            { u with channels := removeS u.channels channel })
          else lookupA s.users uid2)
    (hchans : ∀ cn2, lookupA t.channels cn2
        = if cn2 = channel then some cUp else lookupA s.channels cn2)
    (hcup : ∀ uid2, uid2 ∈ cUp.users ↔
        (∃ c0, lookupA s.channels channel = some c0 ∧ uid2 ∈ c0.users) ∧ uid2 ≠ uid) :
    MembershipSym t ∧ ChannelRefsValid t := by
  constructor
  · intro uid2 u2 cn2 c2 hu2 hc2
    rw [husers] at hu2
    rw [hchans] at hc2
    by_cases e2 : cn2 = channel
    · rw [if_pos e2] at hc2
      obtain rfl : cUp = c2 := by injection hc2
      subst e2
      by_cases e1 : uid2 = uid
      · rw [if_pos e1] at hu2
        subst e1
        cases hou : lookupA s.users uid2 with
        | none => rw [hou] at hu2; exact absurd hu2 (by simp)
        | some u0 =>
            rw [hou] at hu2
            obtain rfl : { u0 with channels := removeS u0.channels cn2 } = u2 := by
              injection hu2
            simp [hcup, mem_removeS]
      · rw [if_neg e1] at hu2
        rw [hcup]
        constructor
        · rintro ⟨⟨c0, hc0, hmem⟩, _⟩
          exact (hSym uid2 u2 cn2 c0 hu2 hc0).1 hmem
        · intro hmem
          cases hoc : lookupA s.channels cn2 with
          | none =>
              have := hRef uid2 u2 hu2 cn2 hmem
              rw [hoc] at this
              exact absurd this (by simp)
          | some c0 =>
              exact ⟨⟨c0, rfl, (hSym uid2 u2 cn2 c0 hu2 hoc).2 hmem⟩, e1⟩
    · rw [if_neg e2] at hc2
      by_cases e1 : uid2 = uid
      · rw [if_pos e1] at hu2
        subst e1
        cases hou : lookupA s.users uid2 with
        | none => rw [hou] at hu2; exact absurd hu2 (by simp)
        | some u0 =>
            rw [hou] at hu2
            obtain rfl : { u0 with channels := removeS u0.channels channel } = u2 := by
              injection hu2
            simp only [mem_removeS]
            rw [hSym uid2 u0 cn2 c2 hou hc2]
            constructor
            · intro hx; exact ⟨hx, e2⟩
            · exact And.left
      · rw [if_neg e1] at hu2
        exact hSym uid2 u2 cn2 c2 hu2 hc2
  · intro uid2 u2 hu2 cn2 hmem
    rw [husers] at hu2
    by_cases e1 : uid2 = uid
    · rw [if_pos e1] at hu2
      cases hou : lookupA s.users uid with
      | none => rw [hou] at hu2; exact absurd hu2 (by simp)
      | some u0 =>
          rw [hou] at hu2
          obtain rfl : { u0 with channels := removeS u0.channels channel } = u2 := by
            injection hu2
          rw [mem_removeS] at hmem
          by_cases e2 : cn2 = channel
          · rw [hchans, if_pos e2]; rfl
          · rw [hchans, if_neg e2]
            exact hRef uid u0 hou cn2 hmem.1
    · rw [if_neg e1] at hu2
      by_cases e2 : cn2 = channel
      · rw [hchans, if_pos e2]; rfl
      · rw [hchans, if_neg e2]
        exact hRef uid2 u2 hu2 cn2 hmem

/-- Symmetry and reference validity survive the PART shape in which the
channel became empty and was removed from the map. -/
theorem symRef_after_leave_remove_shape (s : ServerState) (uid channel : String)
    (t : ServerState) (ch : Channel)
    (hSym : MembershipSym s) (hRef : ChannelRefsValid s)
    (hch : lookupA s.channels channel = some ch)
    (hOnly : ∀ x ∈ ch.users, x = uid)
    (husers : ∀ uid2, lookupA t.users uid2
        = if uid2 = uid then (lookupA s.users uid).map (fun u =>
            { u with channels := removeS u.channels channel })
          else lookupA s.users uid2)
    (hchans : ∀ cn2, lookupA t.channels cn2
        = if cn2 = channel then none else lookupA s.channels cn2) :
    MembershipSym t ∧ ChannelRefsValid t := by
  constructor
  · intro uid2 u2 cn2 c2 hu2 hc2
    rw [husers] at hu2
    rw [hchans] at hc2
    by_cases e2 : cn2 = channel
    · rw [if_pos e2] at hc2
      exact absurd hc2 (by simp)
    · rw [if_neg e2] at hc2
      by_cases e1 : uid2 = uid
      · rw [if_pos e1] at hu2
        subst e1
        cases hou : lookupA s.users uid2 with
        | none => rw [hou] at hu2; exact absurd hu2 (by simp)
        | some u0 =>
            rw [hou] at hu2
            obtain rfl : { u0 with channels := removeS u0.channels channel } = u2 := by
              injection hu2
            simp only [mem_removeS]
            rw [hSym uid2 u0 cn2 c2 hou hc2]
            constructor
            · intro hx; exact ⟨hx, e2⟩
            · exact And.left
      · rw [if_neg e1] at hu2
        exact hSym uid2 u2 cn2 c2 hu2 hc2
  · intro uid2 u2 hu2 cn2 hmem
    rw [husers] at hu2
    by_cases e1 : uid2 = uid
    · rw [if_pos e1] at hu2
      cases hou : lookupA s.users uid with
      | none => rw [hou] at hu2; exact absurd hu2 (by simp)
      | some u0 =>
          rw [hou] at hu2
          obtain rfl : { u0 with channels := removeS u0.channels channel } = u2 := by
            injection hu2
          rw [mem_removeS] at hmem
          rw [hchans, if_neg hmem.2]
          exact hRef uid u0 hou cn2 hmem.1
    · rw [if_neg e1] at hu2
      have e2 : cn2 ≠ channel := by
        intro e2
        subst e2
        have hiff := hSym uid2 u2 cn2 ch hu2 hch
        have hin : uid2 ∈ ch.users := hiff.2 hmem
        exact e1 (hOnly uid2 hin)
      rw [hchans, if_neg e2]
      exact hRef uid2 u2 hu2 cn2 hmem

/-- Symmetry and reference validity survive the PART shape in which the
named channel does not exist: only the user's channel set shrinks. -/
theorem symRef_after_leave_nochannel_shape (s : ServerState) (uid channel : String)
    (t : ServerState)
    (hSym : MembershipSym s) (hRef : ChannelRefsValid s)
    (hnone : lookupA s.channels channel = none)
    (husers : ∀ uid2, lookupA t.users uid2
        = if uid2 = uid then (lookupA s.users uid).map (fun u =>
            { u with channels := removeS u.channels channel })
          else lookupA s.users uid2)
    (hchans : ∀ cn2, lookupA t.channels cn2 = lookupA s.channels cn2) :
    MembershipSym t ∧ ChannelRefsValid t := by
  constructor
  · intro uid2 u2 cn2 c2 hu2 hc2
    rw [husers] at hu2
    rw [hchans] at hc2
    have e2 : cn2 ≠ channel := by
      intro e
      subst e
      rw [hnone] at hc2
      exact absurd hc2 (by simp)
    by_cases e1 : uid2 = uid
    · rw [if_pos e1] at hu2
      subst e1
      cases hou : lookupA s.users uid2 with
      | none => rw [hou] at hu2; exact absurd hu2 (by simp)
      | some u0 =>
          rw [hou] at hu2
          obtain rfl : { u0 with channels := removeS u0.channels channel } = u2 := by
            injection hu2
          simp only [mem_removeS]
          rw [hSym uid2 u0 cn2 c2 hou hc2]
          constructor
          · intro hx; exact ⟨hx, e2⟩
          · exact And.left
    · rw [if_neg e1] at hu2
      exact hSym uid2 u2 cn2 c2 hu2 hc2
  · intro uid2 u2 hu2 cn2 hmem
    rw [husers] at hu2
    rw [hchans]
    by_cases e1 : uid2 = uid
    · rw [if_pos e1] at hu2
      cases hou : lookupA s.users uid with
      | none => rw [hou] at hu2; exact absurd hu2 (by simp)
      | some u0 =>
          rw [hou] at hu2
          obtain rfl : { u0 with channels := removeS u0.channels channel } = u2 := by
            injection hu2
          rw [mem_removeS] at hmem
          exact hRef uid u0 hou cn2 hmem.1
    · rw [if_neg e1] at hu2
      exact hRef uid2 u2 hu2 cn2 hmem

/-- `handle_join` preserves the directory invariants. -/
theorem inv_join (s : ServerState) (uid : String) (parts : List String) (now : Nat)
    (hSym : MembershipSym s) (hRef : ChannelRefsValid s) (hND : ChannelsKeysNodup s) :
    MembershipSym (handleJoin s uid parts now).state
      ∧ ChannelRefsValid (handleJoin s uid parts now).state
      ∧ ChannelsKeysNodup (handleJoin s uid parts now).state := by
  unfold handleJoin
  by_cases hlen : parts.length < 2
  · rw [if_pos hlen]
    exact ⟨hSym, hRef, hND⟩
  rw [if_neg hlen]
  dsimp only
  by_cases hck : containsKeyA s.channels (parts.getD 1 "")
  · simp only [if_pos hck]
    obtain ⟨c0, hc0⟩ : ∃ c0, lookupA s.channels (parts.getD 1 "") = some c0 := by
      unfold containsKeyA at hck
      exact Option.isSome_iff_exists.mp hck
    rw [lookupA_updateA, if_pos rfl]
    have husers : ∀ uid2,
        lookupA (updateA s.users uid (fun u =>
          { u with channels := insertS u.channels (parts.getD 1 "") })) uid2
        = if uid2 = uid then (lookupA s.users uid).map (fun u =>
            { u with channels := insertS u.channels (parts.getD 1 "") })
          else lookupA s.users uid2 := fun uid2 => lookupA_updateA _ _ _ _
    have hchans : ∀ cn2,
        lookupA (updateA s.channels (parts.getD 1 "") (fun ch =>
          { ch with users := insertS ch.users uid, lastActivity := now })) cn2
        = if cn2 = parts.getD 1 "" then
            some (Channel.mk c0.name c0.topic (insertS c0.users uid) c0.messages
              c0.createdAt now)
          else lookupA s.channels cn2 := by
      intro cn2
      rw [lookupA_updateA]
      by_cases e : cn2 = parts.getD 1 ""
      · rw [if_pos e, if_pos e, hc0]
        rfl
      · rw [if_neg e, if_neg e]
    have hcup : ∀ uid2, uid2 ∈ insertS c0.users uid ↔
        (∃ c1, lookupA s.channels (parts.getD 1 "") = some c1 ∧ uid2 ∈ c1.users)
          ∨ uid2 = uid := by
      intro uid2
      rw [mem_insertS]
      constructor
      · rintro (hx | rfl)
        · exact Or.inl ⟨c0, hc0, hx⟩
        · exact Or.inr rfl
      · rintro (⟨c1, hc1, hx⟩ | rfl)
        · rw [hc0] at hc1
          obtain rfl : c0 = c1 := by injection hc1
          exact Or.inl hx
        · exact Or.inr rfl
    have hNDfinal : ((updateA s.channels (parts.getD 1 "") (fun ch =>
        { ch with users := insertS ch.users uid, lastActivity := now })).map
          Prod.fst).Nodup := nodupKeys_updateA _ _ _ hND
    have hchans2 : ∀ (u0 : User) (cn2 : String),
        lookupA (updateA (updateA s.channels (parts.getD 1 "") (fun ch =>
            { ch with users := insertS ch.users uid, lastActivity := now }))
          (parts.getD 1 "") (fun ch =>
            { ch with
              messages := popWhileLong (ch.messages
                ++ [ChatMessage.mk "SYSTEM"
                    (strBytes ("* " ++ u0.username ++ " has joined " ++ parts.getD 1 "")) now []]),
              lastActivity := now })) cn2
        = if cn2 = parts.getD 1 "" then
            some (Channel.mk c0.name c0.topic (insertS c0.users uid)
              (popWhileLong (c0.messages
                ++ [ChatMessage.mk "SYSTEM"
                    (strBytes ("* " ++ u0.username ++ " has joined " ++ parts.getD 1 "")) now []]))
              c0.createdAt now)
          else lookupA s.channels cn2 := by
      intro u0 cn2
      rw [lookupA_updateA]
      by_cases e : cn2 = parts.getD 1 ""
      · rw [if_pos e, if_pos e, hchans, if_pos rfl]
        rfl
      · rw [if_neg e, if_neg e, hchans, if_neg e]
    cases hou : lookupA s.users uid with
    | none =>
        dsimp only [Option.map]
        refine ⟨(symRef_after_join_shape s uid (parts.getD 1 "") _
            (Channel.mk c0.name c0.topic (insertS c0.users uid) c0.messages c0.createdAt now)
            hSym hRef husers hchans hcup).1,
          (symRef_after_join_shape s uid (parts.getD 1 "") _
            (Channel.mk c0.name c0.topic (insertS c0.users uid) c0.messages c0.createdAt now)
            hSym hRef husers hchans hcup).2, hNDfinal⟩
    | some u0 =>
        dsimp only [Option.map]
        refine ⟨(symRef_after_join_shape s uid (parts.getD 1 "") _
            (Channel.mk c0.name c0.topic (insertS c0.users uid)
              (popWhileLong (c0.messages
                ++ [ChatMessage.mk "SYSTEM"
                    (strBytes ("* " ++ u0.username ++ " has joined " ++ parts.getD 1 "")) now []]))
              c0.createdAt now)
            hSym hRef husers (hchans2 u0) hcup).1,
          (symRef_after_join_shape s uid (parts.getD 1 "") _
            (Channel.mk c0.name c0.topic (insertS c0.users uid)
              (popWhileLong (c0.messages
                ++ [ChatMessage.mk "SYSTEM"
                    (strBytes ("* " ++ u0.username ++ " has joined " ++ parts.getD 1 "")) now []]))
              c0.createdAt now)
            hSym hRef husers (hchans2 u0) hcup).2,
          nodupKeys_updateA _ _ _ hNDfinal⟩
  · simp only [if_neg hck]
    have hnone : lookupA s.channels (parts.getD 1 "") = none := by
      unfold containsKeyA at hck
      exact Option.not_isSome_iff_eq_none.mp (by simpa using hck)
    rw [lookupA_updateA, if_pos rfl]
    have husers : ∀ uid2,
        lookupA (updateA s.users uid (fun u =>
          { u with channels := insertS u.channels (parts.getD 1 "") })) uid2
        = if uid2 = uid then (lookupA s.users uid).map (fun u =>
            { u with channels := insertS u.channels (parts.getD 1 "") })
          else lookupA s.users uid2 := fun uid2 => lookupA_updateA _ _ _ _
    have hchans : ∀ cn2,
        lookupA (updateA (insertA s.channels (parts.getD 1 "")
            (Channel.mk (parts.getD 1 "") "" [] [] now now)) (parts.getD 1 "") (fun ch =>
          { ch with users := insertS ch.users uid, lastActivity := now })) cn2
        = if cn2 = parts.getD 1 "" then
            some (Channel.mk (parts.getD 1 "") "" (insertS [] uid) [] now now)
          else lookupA s.channels cn2 := by
      intro cn2
      rw [lookupA_updateA]
      by_cases e : cn2 = parts.getD 1 ""
      · rw [if_pos e, if_pos e, lookupA_insertA, if_pos rfl]
        rfl
      · rw [if_neg e, if_neg e, lookupA_insertA, if_neg e]
    have hcup : ∀ uid2, uid2 ∈ insertS ([] : List String) uid ↔
        (∃ c1, lookupA s.channels (parts.getD 1 "") = some c1 ∧ uid2 ∈ c1.users)
          ∨ uid2 = uid := by
      intro uid2
      rw [mem_insertS]
      constructor
      · rintro (hx | rfl)
        · exact absurd hx (by simp)
        · exact Or.inr rfl
      · rintro (⟨c1, hc1, hx⟩ | rfl)
        · rw [hnone] at hc1
          exact absurd hc1 (by simp)
        · exact Or.inr rfl
    have hNDfinal : ((updateA (insertA s.channels (parts.getD 1 "")
        (Channel.mk (parts.getD 1 "") "" [] [] now now)) (parts.getD 1 "") (fun ch =>
          { ch with users := insertS ch.users uid, lastActivity := now })).map
            Prod.fst).Nodup :=
      nodupKeys_updateA _ _ _ (nodupKeys_insertA _ _ _ hND)
    have hchans2 : ∀ (u0 : User) (cn2 : String),
        lookupA (updateA (updateA (insertA s.channels (parts.getD 1 "")
            (Channel.mk (parts.getD 1 "") "" [] [] now now)) (parts.getD 1 "") (fun ch =>
            { ch with users := insertS ch.users uid, lastActivity := now }))
          (parts.getD 1 "") (fun ch =>
            { ch with
              messages := popWhileLong (ch.messages
                ++ [ChatMessage.mk "SYSTEM"
                    (strBytes ("* " ++ u0.username ++ " has joined " ++ parts.getD 1 "")) now []]),
              lastActivity := now })) cn2
        = if cn2 = parts.getD 1 "" then
            some (Channel.mk (parts.getD 1 "") "" (insertS [] uid)
              (popWhileLong ([]
                ++ [ChatMessage.mk "SYSTEM"
                    (strBytes ("* " ++ u0.username ++ " has joined " ++ parts.getD 1 "")) now []]))
              now now)
          else lookupA s.channels cn2 := by
      intro u0 cn2
      rw [lookupA_updateA]
      by_cases e : cn2 = parts.getD 1 ""
      · rw [if_pos e, if_pos e, hchans, if_pos rfl]
        rfl
      · rw [if_neg e, if_neg e, hchans, if_neg e]
    cases hou : lookupA s.users uid with
    | none =>
        dsimp only [Option.map]
        refine ⟨(symRef_after_join_shape s uid (parts.getD 1 "") _
            (Channel.mk (parts.getD 1 "") "" (insertS [] uid) [] now now)
            hSym hRef husers hchans hcup).1,
          (symRef_after_join_shape s uid (parts.getD 1 "") _
            (Channel.mk (parts.getD 1 "") "" (insertS [] uid) [] now now)
            hSym hRef husers hchans hcup).2, hNDfinal⟩
    | some u0 =>
        dsimp only [Option.map]
        refine ⟨(symRef_after_join_shape s uid (parts.getD 1 "") _
            (Channel.mk (parts.getD 1 "") "" (insertS [] uid)
              (popWhileLong ([]
                ++ [ChatMessage.mk "SYSTEM"
                    (strBytes ("* " ++ u0.username ++ " has joined " ++ parts.getD 1 "")) now []]))
              now now)
            hSym hRef husers (hchans2 u0) hcup).1,
          (symRef_after_join_shape s uid (parts.getD 1 "") _
            (Channel.mk (parts.getD 1 "") "" (insertS [] uid)
              (popWhileLong ([]
                ++ [ChatMessage.mk "SYSTEM"
                    (strBytes ("* " ++ u0.username ++ " has joined " ++ parts.getD 1 "")) now []]))
              now now)
            hSym hRef husers (hchans2 u0) hcup).2,
          nodupKeys_updateA _ _ _ hNDfinal⟩

/-- `handle_leave` (PART) preserves the directory invariants. -/
theorem inv_leave (s : ServerState) (uid : String) (parts : List String) (now : Nat)
    (hSym : MembershipSym s) (hRef : ChannelRefsValid s) (hND : ChannelsKeysNodup s) :
    MembershipSym (handleLeave s uid parts now).state
      ∧ ChannelRefsValid (handleLeave s uid parts now).state
      ∧ ChannelsKeysNodup (handleLeave s uid parts now).state := by
  unfold handleLeave
  by_cases hlen : parts.length < 2
  · rw [if_pos hlen]
    exact ⟨hSym, hRef, hND⟩
  rw [if_neg hlen]
  dsimp only
  cases hu : lookupA s.users uid with
  | none => exact ⟨hSym, hRef, hND⟩
  | some u =>
      dsimp only
      have husers : ∀ uid2,
          lookupA (updateA s.users uid (fun u2 =>
            { u2 with channels := removeS u2.channels (parts.getD 1 "") })) uid2
          = if uid2 = uid then (lookupA s.users uid).map (fun u2 =>
              { u2 with channels := removeS u2.channels (parts.getD 1 "") })
            else lookupA s.users uid2 := fun uid2 => lookupA_updateA _ _ _ _
      cases hc : lookupA s.channels (parts.getD 1 "") with
      | none =>
          dsimp only
          refine ⟨(symRef_after_leave_nochannel_shape s uid (parts.getD 1 "")
              { s with
                users := updateA s.users uid (fun u2 =>
                  { u2 with channels := removeS u2.channels (parts.getD 1 "") }) }
              hSym hRef hc husers (fun cn2 => rfl)).1,
            (symRef_after_leave_nochannel_shape s uid (parts.getD 1 "")
              { s with
                users := updateA s.users uid (fun u2 =>
                  { u2 with channels := removeS u2.channels (parts.getD 1 "") }) }
              hSym hRef hc husers (fun cn2 => rfl)).2, hND⟩
      | some ch =>
          dsimp only
          by_cases hemp : (removeS ch.users uid).isEmpty
          · simp only [if_pos hemp]
            have hOnly : ∀ x ∈ ch.users, x = uid := by
              intro x hx
              by_contra hne
              have : x ∈ removeS ch.users uid := (mem_removeS _ _ _).2 ⟨hx, hne⟩
              rw [List.isEmpty_iff] at hemp
              rw [hemp] at this
              exact absurd this (by simp)
            have hchans : ∀ cn2,
                lookupA (removeA (updateA s.channels (parts.getD 1 "") (fun c =>
                  { c with users := removeS c.users uid, lastActivity := now }))
                    (parts.getD 1 "")) cn2
                = if cn2 = parts.getD 1 "" then none else lookupA s.channels cn2 := by
              intro cn2
              rw [lookupA_removeA _ _ (nodupKeys_updateA _ _ _ hND), lookupA_updateA]
              by_cases e : cn2 = parts.getD 1 ""
              · rw [if_pos e, if_pos e]
              · rw [if_neg e, if_neg e, if_neg e]
            refine ⟨(symRef_after_leave_remove_shape s uid (parts.getD 1 "") _ ch
                hSym hRef hc hOnly husers hchans).1,
              (symRef_after_leave_remove_shape s uid (parts.getD 1 "") _ ch
                hSym hRef hc hOnly husers hchans).2,
              nodupKeys_removeA _ _ (nodupKeys_updateA _ _ _ hND)⟩
          · simp only [if_neg hemp]
            have hchans : ∀ cn2,
                lookupA (updateA (updateA s.channels (parts.getD 1 "") (fun c =>
                    { c with users := removeS c.users uid, lastActivity := now }))
                  (parts.getD 1 "") (fun c =>
                    { c with
                      messages := popWhileLong (c.messages
                        ++ [ChatMessage.mk "SYSTEM"
                            (strBytes ("* " ++ u.username ++ " has left " ++ parts.getD 1 ""))
                            now []]),
                      lastActivity := now })) cn2
                = if cn2 = parts.getD 1 "" then
                    some (Channel.mk ch.name ch.topic (removeS ch.users uid)
                      (popWhileLong (ch.messages
                        ++ [ChatMessage.mk "SYSTEM"
                            (strBytes ("* " ++ u.username ++ " has left " ++ parts.getD 1 ""))
                            now []]))
                      ch.createdAt now)
                  else lookupA s.channels cn2 := by
              intro cn2
              simp only [lookupA_updateA]
              by_cases e : cn2 = parts.getD 1 ""
              · subst e
                simp [hc]
                exact ⟨ch, by simpa using hc, by simp⟩
              · have e2 : ¬cn2 = parts[1]?.getD "" := by simpa using e
                simp [e2]
            have hcup : ∀ uid2, uid2 ∈ removeS ch.users uid ↔
                (∃ c0, lookupA s.channels (parts.getD 1 "") = some c0 ∧ uid2 ∈ c0.users)
                  ∧ uid2 ≠ uid := by
              intro uid2
              rw [mem_removeS]
              constructor
              · rintro ⟨hx, hne⟩
                exact ⟨⟨ch, hc, hx⟩, hne⟩
              · rintro ⟨⟨c0, hc0, hx⟩, hne⟩
                rw [hc] at hc0
                obtain rfl : ch = c0 := by injection hc0
                exact ⟨hx, hne⟩
            refine ⟨(symRef_after_leave_shape s uid (parts.getD 1 "") _
                (Channel.mk ch.name ch.topic (removeS ch.users uid)
                  (popWhileLong (ch.messages
                    ++ [ChatMessage.mk "SYSTEM"
                        (strBytes ("* " ++ u.username ++ " has left " ++ parts.getD 1 ""))
                        now []]))
                  ch.createdAt now)
                hSym hRef husers hchans hcup).1,
              (symRef_after_leave_shape s uid (parts.getD 1 "") _
                (Channel.mk ch.name ch.topic (removeS ch.users uid)
                  (popWhileLong (ch.messages
                    ++ [ChatMessage.mk "SYSTEM"
                        (strBytes ("* " ++ u.username ++ " has left " ++ parts.getD 1 ""))
                        now []]))
                  ch.createdAt now)
                hSym hRef husers hchans hcup).2,
              nodupKeys_updateA _ _ _ (nodupKeys_updateA _ _ _ hND)⟩

/-- The session-activity touch preserves the directory invariants. -/
theorem inv_touch (s : ServerState) (uid : String) (now : Nat)
    (hSym : MembershipSym s) (hRef : ChannelRefsValid s) (hND : ChannelsKeysNodup s) :
    MembershipSym (touchActivity s uid now) ∧ ChannelRefsValid (touchActivity s uid now)
      ∧ ChannelsKeysNodup (touchActivity s uid now) := by
  have husers : ∀ uid2, lookupA (touchActivity s uid now).users uid2
      = if uid2 = uid then (lookupA s.users uid).map (fun u =>
          match u.session with
          | some sess => { u with session := some (sess.updateActivity now) }
          | none => u)
        else lookupA s.users uid2 := fun uid2 => lookupA_updateA _ _ _ _
  refine ⟨?_, ?_, hND⟩
  · intro uid2 u2 cn c hu2 hc
    have hc2 : lookupA s.channels cn = some c := hc
    rw [husers] at hu2
    by_cases e1 : uid2 = uid
    · rw [if_pos e1] at hu2
      subst e1
      cases hou : lookupA s.users uid2 with
      | none => rw [hou] at hu2; exact absurd hu2 (by simp)
      | some u0 =>
          rw [hou] at hu2
          simp only [Option.map] at hu2
          obtain rfl := Option.some.inj hu2
          cases hs : u0.session with
          | none =>
              simp only [hs]
              exact hSym uid2 u0 cn c hou hc2
          | some sess =>
              simp only [hs]
              exact hSym uid2 u0 cn c hou hc2
    · rw [if_neg e1] at hu2
      exact hSym uid2 u2 cn c hu2 hc2
  · intro uid2 u2 hu2 cn hmem
    show (lookupA s.channels cn).isSome = true
    rw [husers] at hu2
    by_cases e1 : uid2 = uid
    · rw [if_pos e1] at hu2
      subst e1
      cases hou : lookupA s.users uid2 with
      | none => rw [hou] at hu2; exact absurd hu2 (by simp)
      | some u0 =>
          rw [hou] at hu2
          simp only [Option.map] at hu2
          obtain rfl := Option.some.inj hu2
          cases hs : u0.session with
          | none =>
              rw [hs] at hmem
              exact hRef uid2 u0 hou cn hmem
          | some sess =>
              rw [hs] at hmem
              exact hRef uid2 u0 hou cn hmem
    · rw [if_neg e1] at hu2
      exact hRef uid2 u2 hu2 cn hmem

/-- Claim C2: after every JOIN or PART command returns, membership is
symmetric: a user id is in a channel's member set iff the channel's name is
in that user's channel set (given the directory invariants held before the
command; reference validity and key uniqueness are preserved alongside, so
the property holds over arbitrary JOIN/PART sequences). -/
theorem join_part_membership_symmetric (s : ServerState) (uid cmd : String) (now : Nat)
    (hSym : MembershipSym s) (hRef : ChannelRefsValid s) (hND : ChannelsKeysNodup s)
    (hverb : toUpperStr ((splitn3 cmd).getD 0 "") = "JOIN"
      ∨ toUpperStr ((splitn3 cmd).getD 0 "") = "PART") :
    MembershipSym (handleMessage s uid cmd now).state
      ∧ ChannelRefsValid (handleMessage s uid cmd now).state
      ∧ ChannelsKeysNodup (handleMessage s uid cmd now).state := by
  unfold handleMessage
  by_cases hp : (splitn3 cmd).isEmpty
  · exfalso
    rw [List.isEmpty_iff] at hp
    rw [hp] at hverb
    have he : toUpperStr (([] : List String).getD 0 "") = "" := by decide
    rw [he] at hverb
    rcases hverb with h | h <;> exact absurd h (by decide)
  · simp only [if_neg hp]
    obtain ⟨hS, hR, hN⟩ := inv_touch s uid now hSym hRef hND
    rcases hverb with hv | hv
    · rw [hv]
      exact inv_join (touchActivity s uid now) uid (splitn3 cmd) now hS hR hN
    · rw [hv]
      exact inv_leave (touchActivity s uid now) uid (splitn3 cmd) now hS hR hN

theorem join_part_membership_symmetric_witness :
    MembershipSym (handleMessage ⟨[], [], "sec", 3600, 3600⟩ "a" "JOIN #c" 5).state
      ∧ ChannelRefsValid (handleMessage ⟨[], [], "sec", 3600, 3600⟩ "a" "JOIN #c" 5).state
      ∧ ChannelsKeysNodup (handleMessage ⟨[], [], "sec", 3600, 3600⟩ "a" "JOIN #c" 5).state :=
  join_part_membership_symmetric ⟨[], [], "sec", 3600, 3600⟩ "a" "JOIN #c" 5
    (fun uid u cn c hu _ => by simp [lookupA] at hu)
    (fun uid u hu cn _ => by simp [lookupA] at hu)
    (by simp [ChannelsKeysNodup])
    (Or.inl (by decide))

/-! ### Claim C8 — SECURECLEAR -/

/-- Claim C8: for a user with a private history of length `k > 0` and a
stream, SECURECLEAR empties the history, releases exactly `k` messages all
of whose content and encrypted bytes are zero (with the byte lengths of the
originals preserved, i.e. an overwrite), and writes exactly the confirming
NOTICE line; the SECURECLEAR command routes to `handle_secure_clear` after
the session-activity touch. -/
theorem secureclear_wipes_and_notifies (s : ServerState) (uid : String) (now k : Nat)
    (u : User) (hu : lookupA s.users uid = some u) (hstream : u.hasStream = true)
    (hk : u.messages.length = k) (hkpos : 0 < k) :
    handleMessage s uid "SECURECLEAR" now
        = handleSecureClear (touchActivity s uid now) uid ∧
    (∃ u2, lookupA (handleSecureClear s uid).state.users uid = some u2 ∧
        u2.messages = []) ∧
    (handleSecureClear s uid).released.length = k ∧
    (∀ m ∈ (handleSecureClear s uid).released,
        (∀ b ∈ m.content, b = 0) ∧ ∀ b ∈ m.encrypted, b = 0) ∧
    (handleSecureClear s uid).released.map (fun m => m.content.length)
        = u.messages.map (fun m => m.content.length) ∧
    (handleSecureClear s uid).released.map (fun m => m.encrypted.length)
        = u.messages.map (fun m => m.encrypted.length) ∧
    (handleSecureClear s uid).frames
        = [(uid, "NOTICE :All your messages have been securely deleted\r\n")] := by
  have hsc : handleSecureClear s uid =
      ⟨{ s with users := updateA s.users uid (fun u2 => { u2 with messages := [] }) },
        if u.hasStream then
          [(uid, "NOTICE :All your messages have been securely deleted\r\n")]
        else [],
        u.messages.map secureDeleteMessage, none⟩ := by
    unfold handleSecureClear
    rw [hu]
  refine ⟨rfl, ?_, ?_, ?_, ?_, ?_, ?_⟩
  · rw [hsc]
    refine ⟨{ u with messages := [] }, ?_, rfl⟩
    show lookupA (updateA s.users uid _) uid = _
    rw [lookupA_updateA, if_pos rfl, hu]
    rfl
  · rw [hsc]
    simp [hk]
  · rw [hsc]
    intro m hm
    simp only [List.mem_map] at hm
    obtain ⟨m0, _, rfl⟩ := hm
    constructor
    · intro b hb
      simp only [secureDeleteMessage, List.mem_map] at hb
      obtain ⟨a, _, rfl⟩ := hb
      rfl
    · intro b hb
      simp only [secureDeleteMessage, List.mem_map] at hb
      obtain ⟨a, _, rfl⟩ := hb
      rfl
  · rw [hsc]
    simp [secureDeleteMessage, List.map_map, Function.comp]
  · rw [hsc]
    simp [secureDeleteMessage, List.map_map, Function.comp]
  · rw [hsc]
    simp [hstream]

theorem secureclear_wipes_and_notifies_witness :
    handleMessage sC8 "a" "SECURECLEAR" 9
        = handleSecureClear (touchActivity sC8 "a" 9) "a" ∧
    (∃ u2, lookupA (handleSecureClear sC8 "a").state.users "a" = some u2 ∧
        u2.messages = []) ∧
    (handleSecureClear sC8 "a").released.length = 1 ∧
    (∀ m ∈ (handleSecureClear sC8 "a").released,
        (∀ b ∈ m.content, b = 0) ∧ ∀ b ∈ m.encrypted, b = 0) ∧
    (handleSecureClear sC8 "a").released.map (fun m => m.content.length)
        = [ChatMessage.mk "bob" [104, 105] 0 [7, 8]].map (fun m => m.content.length) ∧
    (handleSecureClear sC8 "a").released.map (fun m => m.encrypted.length)
        = [ChatMessage.mk "bob" [104, 105] 0 [7, 8]].map (fun m => m.encrypted.length) ∧
    (handleSecureClear sC8 "a").frames
        = [("a", "NOTICE :All your messages have been securely deleted\r\n")] :=
  secureclear_wipes_and_notifies sC8 "a" 9 1
    ⟨"a", "alice", [], [], true, none, [ChatMessage.mk "bob" [104, 105] 0 [7, 8]]⟩
    rfl rfl rfl (by decide)

/-- Claim C1, checked on the code: a janitor pass at `now = 60` with
`message_ttl = 10` releases the expired channel message and the expired
private message with their content and encrypted bytes intact (no zero
overwrite), and the cascade removal of `disconnect_user` likewise releases
the private history unzeroed.  The claim that every destruction path zeroes
the bytes is false of the code. -/
theorem janitor_and_cascade_release_unzeroed_bytes :
    (cleanupPass sC1 60).2.2
        = [ChatMessage.mk "alice" [104, 105] 0 [7], ChatMessage.mk "bob" [104] 0 [9]] ∧
    ¬ (∀ m ∈ (cleanupPass sC1 60).2.2,
        (∀ b ∈ m.content, b = 0) ∧ ∀ b ∈ m.encrypted, b = 0) ∧
    (disconnectUser sC1 "a").2.2 = [ChatMessage.mk "bob" [104] 0 [9]] ∧
    ¬ (∀ m ∈ (disconnectUser sC1 "a").2.2,
        (∀ b ∈ m.content, b = 0) ∧ ∀ b ∈ m.encrypted, b = 0) := by
  refine ⟨by decide, by decide, by decide, by decide⟩

/-- Claim C9, checked on the code: when the janitor removes one expired
message from `#c` it writes the member exactly one NOTICE naming the count,
but that frame is not CRLF-terminated (facade.rs line 379 lacks the
`\r\n` its private-history sibling at line 405 carries). -/
theorem janitor_channel_notice_lacks_crlf :
    (cleanupPass sC9 60).2.1
        = [("b", "NOTICE :SECURITY: 1 messages have been automatically deleted")] ∧
    ¬ ("\r\n".data <:+
        "NOTICE :SECURITY: 1 messages have been automatically deleted".data) := by
  refine ⟨by decide, by decide⟩

theorem lookupA_mapVal {α : Type} (m : List (String × α)) (g : α → α) (k : String) :
    lookupA (m.map (fun p => (p.1, g p.2))) k = (lookupA m k).map g := by
  induction m with
  | nil => rfl
  | cons hd tl ih =>
      obtain ⟨k1, v⟩ := hd
      by_cases e : k1 = k
      · simp [lookupA, e]
      · simp [lookupA, e, ih]

theorem keys_mapVal {α : Type} (m : List (String × α)) (g : α → α) :
    (m.map (fun p => (p.1, g p.2))).map Prod.fst = m.map Prod.fst := by
  induction m with
  | nil => rfl
  | cons hd tl ih => simp [ih]

theorem nodup_keys_map_fst {α : Type} (m : List (String × α))
    (f : String × α → String × α) (hf : ∀ p, (f p).1 = p.1)
    (h : (m.map Prod.fst).Nodup) : ((m.map f).map Prod.fst).Nodup := by
  have e : (m.map f).map Prod.fst = m.map Prod.fst := by
    rw [List.map_map]
    exact List.map_congr_left (fun p _ => hf p)
  rw [e]
  exact h

theorem lookupA_mem_keys {α : Type} (m : List (String × α)) (k : String) (v : α)
    (h : lookupA m k = some v) : k ∈ m.map Prod.fst := by
  induction m with
  | nil => exact absurd h (by simp [lookupA])
  | cons hd tl ih =>
      obtain ⟨k1, w⟩ := hd
      by_cases e : k1 = k
      · simp [e]
      · rw [lookupA, if_neg e] at h
        simp [ih h]

theorem lookupA_filter {α : Type} (m : List (String × α)) (q : String × α → Bool)
    (k : String) (v : α) (hnd : (m.map Prod.fst).Nodup)
    (h : lookupA (m.filter q) k = some v) : lookupA m k = some v := by
  induction m with
  | nil => exact absurd h (by simp [lookupA])
  | cons hd tl ih =>
      obtain ⟨k1, w⟩ := hd
      simp only [List.map_cons, List.nodup_cons] at hnd
      by_cases e : k1 = k
      · subst e
        cases hq : q (k1, w) with
        | true =>
            rw [List.filter_cons_of_pos hq] at h
            rw [lookupA, if_pos rfl] at h ⊢
            exact h
        | false =>
            rw [List.filter_cons_of_neg (by simp [hq])] at h
            have : k1 ∈ tl.map Prod.fst := by
              have hsub : lookupA (tl.filter q) k1 = some v := h
              have := lookupA_mem_keys _ _ _ hsub
              have hsubl : List.Sublist ((tl.filter q).map Prod.fst) (tl.map Prod.fst) :=
                (List.filter_sublist tl).map Prod.fst
              exact hsubl.mem this
            exact absurd this hnd.1
      · cases hq : q (k1, w) with
        | true =>
            rw [List.filter_cons_of_pos hq] at h
            rw [lookupA, if_neg e] at h
            rw [lookupA, if_neg e]
            exact ih hnd.2 h
        | false =>
            rw [List.filter_cons_of_neg (by simp [hq])] at h
            rw [lookupA, if_neg e]
            exact ih hnd.2 h

theorem fduStep_fold_pres (uid username : String) :
    ∀ (ls : List String) (p : ServerState × List Frame),
      (ls.foldl (fduStep uid username) p).1.users = p.1.users ∧
      ((ls.foldl (fduStep uid username) p).1.channels.map Prod.fst
          = p.1.channels.map Prod.fst) ∧
      ChanMsgPres p.1 (ls.foldl (fduStep uid username) p).1 := by
  intro ls
  induction ls with
  | nil => exact fun p => ⟨rfl, rfl, fun cn c2 h => ⟨c2, h, rfl⟩⟩
  | cons hd tl ih =>
      intro p
      simp only [List.foldl_cons]
      obtain ⟨h1, h2, h3⟩ := ih (fduStep uid username p hd)
      have hstep_users : (fduStep uid username p hd).1.users = p.1.users := by
        unfold fduStep
        cases lookupA p.1.channels hd <;> rfl
      have hstep_keys : (fduStep uid username p hd).1.channels.map Prod.fst
          = p.1.channels.map Prod.fst := by
        unfold fduStep
        cases lookupA p.1.channels hd with
        | none => rfl
        | some c => exact keys_updateA _ _ _
      have hstep_pres : ChanMsgPres p.1 (fduStep uid username p hd).1 := by
        unfold fduStep
        cases hc : lookupA p.1.channels hd with
        | none => exact fun cn c2 h => ⟨c2, h, rfl⟩
        | some c =>
            intro cn c2 h
            have h2 : lookupA (updateA p.1.channels hd (fun c =>
                { c with users := removeS c.users uid })) cn = some c2 := h
            rw [lookupA_updateA] at h2
            by_cases e : cn = hd
            · rw [if_pos e] at h2
              cases hoc : lookupA p.1.channels hd with
              | none => rw [hoc] at h2; exact absurd h2 (by simp)
              | some c1 =>
                  rw [hoc] at h2
                  simp only [Option.map] at h2
                  obtain rfl := Option.some.inj h2
                  exact ⟨c1, e ▸ hoc, rfl⟩
            · rw [if_neg e] at h2
              exact ⟨c2, h2, rfl⟩
      refine ⟨h1.trans hstep_users, h2.trans hstep_keys, fun cn c2 h => ?_⟩
      obtain ⟨cmid, hmid, hmsg⟩ := h3 cn c2 h
      obtain ⟨c1, h1c, hmsg2⟩ := hstep_pres cn cmid hmid
      exact ⟨c1, h1c, hmsg.trans hmsg2⟩

theorem fdu_pres (st : ServerState) (uid : String)
    (hndu : (st.users.map Prod.fst).Nodup) :
    ChanMsgPres st (facadeDisconnectUser st uid).1 ∧
    UserEntryPres st (facadeDisconnectUser st uid).1 ∧
    ((facadeDisconnectUser st uid).1.channels.map Prod.fst
        = st.channels.map Prod.fst) ∧
    ((facadeDisconnectUser st uid).1.users.map Prod.fst).Nodup := by
  unfold facadeDisconnectUser
  cases hu : lookupA st.users uid with
  | none =>
      refine ⟨fun cn c2 h => ⟨c2, h, rfl⟩, ?_, rfl, nodupKeys_removeA _ _ hndu⟩
      intro uid2 u2 h
      have h2 : lookupA (removeA st.users uid) uid2 = some u2 := h
      rw [lookupA_removeA _ _ hndu] at h2
      by_cases e : uid2 = uid
      · rw [if_pos e] at h2; exact absurd h2 (by simp)
      · rw [if_neg e] at h2; exact h2
  | some u =>
      obtain ⟨hus, hkeys, hpres⟩ := fduStep_fold_pres uid u.username u.channels (st, [])
      refine ⟨hpres, ?_, hkeys, ?_⟩
      · intro uid2 u2 h
        have h2 : lookupA (removeA
            (u.channels.foldl (fduStep uid u.username) (st, [])).1.users uid) uid2
            = some u2 := h
        rw [hus] at h2
        rw [lookupA_removeA _ _ hndu] at h2
        by_cases e : uid2 = uid
        · rw [if_pos e] at h2; exact absurd h2 (by simp)
        · rw [if_neg e] at h2; exact h2
      · show ((removeA
            (u.channels.foldl (fduStep uid u.username) (st, [])).1.users uid).map
              Prod.fst).Nodup
        rw [hus]
        exact nodupKeys_removeA _ _ hndu

theorem cleanupDisc_fold_pres :
    ∀ (ls : List String) (acc : ServerState × List Frame × List ChatMessage),
      (acc.1.users.map Prod.fst).Nodup →
      ChanMsgPres acc.1 (ls.foldl cleanupDiscStep acc).1 ∧
      UserEntryPres acc.1 (ls.foldl cleanupDiscStep acc).1 ∧
      ((ls.foldl cleanupDiscStep acc).1.channels.map Prod.fst
          = acc.1.channels.map Prod.fst) ∧
      ((ls.foldl cleanupDiscStep acc).1.users.map Prod.fst).Nodup := by
  intro ls
  induction ls with
  | nil =>
      exact fun acc h => ⟨fun cn c2 h2 => ⟨c2, h2, rfl⟩, fun uid u2 h2 => h2, rfl, h⟩
  | cons hd tl ih =>
      intro acc hnd
      simp only [List.foldl_cons]
      obtain ⟨p1, p2, p3, p4⟩ := fdu_pres acc.1 hd hnd
      have hstep1 : (cleanupDiscStep acc hd).1 = (facadeDisconnectUser acc.1 hd).1 := rfl
      obtain ⟨q1, q2, q3, q4⟩ := ih (cleanupDiscStep acc hd) (by rw [hstep1]; exact p4)
      rw [hstep1] at q1 q2 q3
      refine ⟨fun cn c2 h => ?_, fun uid u2 h => ?_, ?_, q4⟩
      · obtain ⟨cmid, hmid, hmsg⟩ := q1 cn c2 h
        obtain ⟨c1, h1c, hmsg2⟩ := p1 cn cmid hmid
        exact ⟨c1, h1c, hmsg.trans hmsg2⟩
      · exact p2 uid u2 (q2 uid u2 h)
      · exact q3.trans p3

theorem sweep_final_channels (S2 : ServerState) (ls : List String)
    (q : String × Channel → Bool)
    (hnd2u : (S2.users.map Prod.fst).Nodup) (hnd2c : (S2.channels.map Prod.fst).Nodup)
    (cn : String) (c2 : Channel)
    (h : lookupA (((ls.foldl cleanupDiscStep (S2, [], [])).1.channels).filter q) cn
        = some c2) :
    ∃ c1, lookupA S2.channels cn = some c1 ∧ c2.messages = c1.messages := by
  obtain ⟨p1, _, p3, _⟩ := cleanupDisc_fold_pres ls (S2, [], []) hnd2u
  have hndf : (((ls.foldl cleanupDiscStep (S2, [], [])).1.channels).map Prod.fst).Nodup := by
    rw [p3]; exact hnd2c
  exact p1 cn c2 (lookupA_filter _ _ _ _ hndf h)

theorem sweep_final_users (S2 : ServerState) (ls : List String)
    (hnd2u : (S2.users.map Prod.fst).Nodup) (uid : String) (u2 : User)
    (h : lookupA (ls.foldl cleanupDiscStep (S2, [], [])).1.users uid = some u2) :
    lookupA S2.users uid = some u2 :=
  (cleanupDisc_fold_pres ls (S2, [], []) hnd2u).2.1 uid u2 h

/-- Claim C5: a janitor pass removes from every surviving channel history
and every surviving private history exactly the messages whose age has
reached `message_ttl`: the resulting list is the filter of the original by
`now − timestamp < message_ttl`, and hence every message still stored after
the pass is younger than `message_ttl`. -/
theorem janitor_pass_retains_iff (s : ServerState) (now : Nat)
    (hndc : (s.channels.map Prod.fst).Nodup) (hndu : (s.users.map Prod.fst).Nodup) :
    (∀ cn c2, lookupA (cleanupPass s now).1.channels cn = some c2 →
        ∃ c, lookupA s.channels cn = some c ∧
          c2.messages = c.messages.filter (freshEnough now s.messageTtl)) ∧
    (∀ uid u2, lookupA (cleanupPass s now).1.users uid = some u2 →
        ∃ u, lookupA s.users uid = some u ∧
          u2.messages = u.messages.filter (freshEnough now s.messageTtl)) ∧
    (∀ cn c2, lookupA (cleanupPass s now).1.channels cn = some c2 →
        ∀ m ∈ c2.messages, now - m.timestamp < s.messageTtl) ∧
    (∀ uid u2, lookupA (cleanupPass s now).1.users uid = some u2 →
        ∀ m ∈ u2.messages, now - m.timestamp < s.messageTtl) := by
  have main1 : ∀ cn c2, lookupA (cleanupPass s now).1.channels cn = some c2 →
      ∃ c, lookupA s.channels cn = some c ∧
        c2.messages = c.messages.filter (freshEnough now s.messageTtl) := by
    intro cn c2 h
    unfold cleanupPass at h
    dsimp only at h
    obtain ⟨c1, hc1, hm1⟩ := sweep_final_channels _ _ _
      (nodup_keys_map_fst s.users
      (fun p : String × User =>
        (p.1, { p.2 with messages := p.2.messages.filter (freshEnough now s.messageTtl) })) (fun p => rfl) hndu)
      (nodup_keys_map_fst s.channels
      (fun p : String × Channel =>
        (p.1, { p.2 with messages := p.2.messages.filter (freshEnough now s.messageTtl) })) (fun p => rfl) hndc)
      cn c2 h
    have hc2 : (lookupA s.channels cn).map (fun c =>
        { c with messages := c.messages.filter (freshEnough now s.messageTtl) })
        = some c1 := by
      rw [← lookupA_mapVal]
      exact hc1
    cases hoc : lookupA s.channels cn with
    | none => rw [hoc] at hc2; exact absurd hc2 (by simp)
    | some c0 =>
        rw [hoc] at hc2
        simp only [Option.map] at hc2
        obtain rfl := Option.some.inj hc2
        exact ⟨c0, rfl, hm1⟩
  have main2 : ∀ uid u2, lookupA (cleanupPass s now).1.users uid = some u2 →
      ∃ u, lookupA s.users uid = some u ∧
        u2.messages = u.messages.filter (freshEnough now s.messageTtl) := by
    intro uid u2 h
    unfold cleanupPass at h
    dsimp only at h
    have hu1 := sweep_final_users _ _
      (nodup_keys_map_fst s.users
      (fun p : String × User =>
        (p.1, { p.2 with messages := p.2.messages.filter (freshEnough now s.messageTtl) })) (fun p => rfl) hndu) uid u2 h
    have hu2 : (lookupA s.users uid).map (fun u =>
        { u with messages := u.messages.filter (freshEnough now s.messageTtl) })
        = some u2 := by
      rw [← lookupA_mapVal]
      exact hu1
    cases hou : lookupA s.users uid with
    | none => rw [hou] at hu2; exact absurd hu2 (by simp)
    | some u0 =>
        rw [hou] at hu2
        simp only [Option.map] at hu2
        obtain rfl := Option.some.inj hu2
        exact ⟨u0, rfl, rfl⟩
  refine ⟨main1, main2, ?_, ?_⟩
  · intro cn c2 h m hm
    obtain ⟨c, _, he⟩ := main1 cn c2 h
    rw [he, List.mem_filter] at hm
    exact of_decide_eq_true hm.2
  · intro uid u2 h m hm
    obtain ⟨u, _, he⟩ := main2 uid u2 h
    rw [he, List.mem_filter] at hm
    exact of_decide_eq_true hm.2

theorem janitor_pass_retains_iff_witness :
    ∃ c, lookupA sC1.channels "#c" = some c ∧
      (Channel.mk "#c" "" ["a"] [] 0 0).messages
        = c.messages.filter (freshEnough 60 sC1.messageTtl) :=
  (janitor_pass_retains_iff sC1 60 (by decide) (by decide)).1 "#c"
    (Channel.mk "#c" "" ["a"] [] 0 0) (by decide)

/-- Claim C3 refuted on the code: the undecodable-profile-picture failure
writes `ERROR :Invalid profile picture data`, a line that does not begin
`ERROR :Authentication failed:` (the directory is indeed unchanged and no
user is registered). -/
theorem auth_profile_pic_error_line_counterexample :
    (authPhase 60 tokBadPic "sid" (List.replicate 32 0) sEmpty 1000).2.1
        = ["ERROR :Invalid profile picture data\r\n"] ∧
    (authPhase 60 tokBadPic "sid" (List.replicate 32 0) sEmpty 1000).2.2 = none ∧
    (authPhase 60 tokBadPic "sid" (List.replicate 32 0) sEmpty 1000).1 = sEmpty ∧
    ¬ ("ERROR :Authentication failed:".data
        <+: "ERROR :Invalid profile picture data\r\n".data) := by
  refine ⟨by decide, by decide, by decide, by decide⟩

/-- Claim C3 amended: a JWT-level failure (undecodable token, bad signature,
or expired `exp`) writes exactly one line
`ERROR :Authentication failed: <reason>`, the undecodable profile picture
writes exactly one line `ERROR :Invalid profile picture data`, and in every
aborted case the directory is exactly as before. -/
theorem auth_failure_frames_and_no_mutation (leeway : Nat) (tok : TokenInput)
    (sid : String) (key : List Nat) (s : ServerState) (now : Nat) :
    (∀ e, jwtDecode leeway now tok = Except.error e →
        (authPhase leeway tok sid key s now).2.1
            = ["ERROR :Authentication failed: " ++ e ++ "\r\n"] ∧
        (authPhase leeway tok sid key s now).2.2 = none ∧
        (authPhase leeway tok sid key s now).1 = s) ∧
    (∀ claims, jwtDecode leeway now tok = Except.ok claims →
        claims.profilePic = none →
        (authPhase leeway tok sid key s now).2.1
            = ["ERROR :Invalid profile picture data\r\n"] ∧
        (authPhase leeway tok sid key s now).2.2 = none ∧
        (authPhase leeway tok sid key s now).1 = s) ∧
    ((authPhase leeway tok sid key s now).2.2 = none →
        (authPhase leeway tok sid key s now).1 = s) := by
  cases hjd : jwtDecode leeway now tok with
  | error e0 =>
      have hr : authPhase leeway tok sid key s now
          = (s, ["ERROR :Authentication failed: " ++ e0 ++ "\r\n"], none) := by
        unfold authPhase
        rw [hjd]
      refine ⟨?_, ?_, ?_⟩
      · intro e he
        obtain rfl : e0 = e := by injection he
        rw [hr]
        exact ⟨rfl, rfl, rfl⟩
      · intro claims hcl
        exact absurd hcl (by simp)
      · intro _
        rw [hr]
  | ok claims =>
      cases hpic : claims.profilePic with
      | none =>
          have hr : authPhase leeway tok sid key s now
              = (s, ["ERROR :Invalid profile picture data\r\n"], none) := by
            unfold authPhase
            rw [hjd]
            dsimp only
            rw [hpic]
          refine ⟨?_, ?_, ?_⟩
          · intro e he
            exact absurd he (by simp)
          · intro claims2 hcl hpic2
            obtain rfl : claims = claims2 := by injection hcl
            rw [hr]
            exact ⟨rfl, rfl, rfl⟩
          · intro _
            rw [hr]
      | some pic =>
          have hr : authPhase leeway tok sid key s now
              = ({ s with
                    users := insertA s.users claims.sub
                      (User.mk claims.sub claims.username pic [] true
                        (some (Session.mk' sid claims.sub key now)) []) },
                 [], some claims.sub) := by
            unfold authPhase
            rw [hjd]
            dsimp only
            rw [hpic]
          refine ⟨?_, ?_, ?_⟩
          · intro e he
            exact absurd he (by simp)
          · intro claims2 hcl hpic2
            obtain rfl : claims = claims2 := by injection hcl
            rw [hpic] at hpic2
            exact absurd hpic2 (by simp)
          · intro hnone
            rw [hr] at hnone
            exact absurd hnone (by simp)

theorem auth_failure_frames_and_no_mutation_witness :
    (authPhase 60 tokBadSig "sid" (List.replicate 32 0) sEmpty 1000).2.1
        = ["ERROR :Authentication failed: " ++ "InvalidSignature" ++ "\r\n"] ∧
    (authPhase 60 tokBadSig "sid" (List.replicate 32 0) sEmpty 1000).2.2 = none ∧
    (authPhase 60 tokBadSig "sid" (List.replicate 32 0) sEmpty 1000).1 = sEmpty :=
  (auth_failure_frames_and_no_mutation 60 tokBadSig "sid" (List.replicate 32 0)
    sEmpty 1000).1 "InvalidSignature" (by rfl)

/-- Claim C4 refuted on the code: with `nbf = 2000` strictly in the future
of `now = 1000` and `exp = now` (not strictly in the future), the token is
accepted — even at leeway 0 — and the user is registered. -/
theorem nbf_future_accepted_counterexample :
    (authPhase 0 tokC4 "sid" (List.replicate 32 0) sEmpty 1000).2.2 = some "u9" ∧
    (lookupA (authPhase 0 tokC4 "sid" (List.replicate 32 0) sEmpty 1000).1.users
        "u9").isSome = true ∧
    tokC4.claims.nbf = some 2000 ∧ 1000 < 2000 ∧
    tokC4.claims.exp = 1000 := by
  refine ⟨by decide, by decide, by decide, by decide, by decide⟩

/-- Claim C4 amended: under `Validation::new(HS256)` a token is accepted and
its user registered iff it parses, its signature matches, `exp + leeway` has
not passed, and the profile picture decodes; the `nbf` claim is never
consulted (changing it never changes the outcome). -/
theorem token_acceptance_iff (leeway : Nat) (tok : TokenInput) (sid : String)
    (key : List Nat) (s : ServerState) (now : Nat) :
    (((authPhase leeway tok sid key s now).2.2).isSome = true
      ↔ (tok.decodable = true ∧ tok.signatureValid = true
          ∧ ¬ (tok.claims.exp + leeway < now) ∧ tok.claims.profilePic ≠ none)) ∧
    (∀ nbf2, (authPhase leeway ⟨tok.decodable, tok.signatureValid,
        ⟨tok.claims.sub, tok.claims.username, tok.claims.profilePic,
          tok.claims.exp, tok.claims.iat, nbf2, tok.claims.jti⟩⟩ sid key s now).2.2
      = (authPhase leeway tok sid key s now).2.2) := by
  constructor
  · unfold authPhase jwtDecode
    by_cases hd : tok.decodable = true
    · by_cases hs : tok.signatureValid = true
      · by_cases he : tok.claims.exp + leeway < now
        · simp [hd, hs, he]
        · cases hpic : tok.claims.profilePic with
          | none => simp [hd, hs, he, hpic]
          | some pic => simp [hd, hs, he, hpic]
      · simp [hd, hs]
    · simp [hd]
  · intro nbf2
    unfold authPhase jwtDecode
    by_cases hd : tok.decodable = true
    · by_cases hs : tok.signatureValid = true
      · by_cases he : tok.claims.exp + leeway < now
        · simp [hd, hs, he]
        · cases hpic : tok.claims.profilePic with
          | none => simp [hd, hs, he, hpic]
          | some pic => simp [hd, hs, he, hpic]
      · simp [hd, hs]
    · simp [hd]

theorem token_acceptance_iff_witness :
    ((authPhase 60 tokBadSig "sid" (List.replicate 32 0) sEmpty 1000).2.2).isSome = true
      ↔ (tokBadSig.decodable = true ∧ tokBadSig.signatureValid = true
          ∧ ¬ (tokBadSig.claims.exp + 60 < 1000) ∧ tokBadSig.claims.profilePic ≠ none) :=
  (token_acceptance_iff 60 tokBadSig "sid" (List.replicate 32 0) sEmpty 1000).1

/-! ### Claim C7 — channel PRIVMSG broadcast -/

theorem filterMap_frames_filter (l : List String) (F : String → Option Frame)
    (hF : ∀ a fr, F a = some fr → fr.1 = a) (hnd : l.Nodup) (m : String) :
    (l.filterMap F).filter (fun fr => fr.1 == m)
      = if m ∈ l then (F m).toList else [] := by
  induction l with
  | nil => simp
  | cons a t ih =>
      have hnd2 : t.Nodup := (List.nodup_cons.mp hnd).2
      have hat : a ∉ t := (List.nodup_cons.mp hnd).1
      rw [List.filterMap_cons]
      cases hFa : F a with
      | none =>
          rw [ih hnd2]
          by_cases e : m = a
          · subst e
            rw [if_neg (fun h => absurd h hat), if_pos (List.mem_cons_self _ _), hFa]
            rfl
          · by_cases h2 : m ∈ t
            · rw [if_pos h2, if_pos (List.mem_cons_of_mem _ h2)]
            · rw [if_neg h2, if_neg (by simp [e, h2])]
      | some fr =>
          have hfr1 : fr.1 = a := hF a fr hFa
          rw [List.filter_cons]
          by_cases e : m = a
          · subst e
            have hbeq : (fr.1 == m) = true := by simp [hfr1]
            rw [if_pos hbeq, ih hnd2, if_neg (fun h => absurd h hat),
              if_pos (List.mem_cons_self _ _), hFa]
            rfl
          · have hbeq : (fr.1 == m) = false := by
              simp [hfr1]
              exact fun h => e h.symm
            rw [if_neg (by simp [hbeq]), ih hnd2]
            by_cases h2 : m ∈ t
            · rw [if_pos h2, if_pos (List.mem_cons_of_mem _ h2)]
            · rw [if_neg h2, if_neg (by simp [e, h2])]

/-- The frames a channel broadcast sends to one recipient id. -/
theorem broadcast_filter (s : ServerState) (cn msg : String) (ex m : String)
    (ch : Channel) (hch : lookupA s.channels cn = some ch) (hnd : ch.users.Nodup) :
    (broadcastToChannel s cn msg (some ex)).filter (fun fr => fr.1 == m)
      = if m ∈ ch.users then
          (if (some ex : Option String) = some m then none
           else
             match lookupA s.users m with
             | none => none
             | some u =>
                 if u.hasStream then
                   some (m, ":" ++ cn ++ " PRIVMSG " ++ u.username ++ " :" ++ msg ++ "\r\n")
                 else none).toList
        else [] := by
  unfold broadcastToChannel
  rw [hch]
  refine filterMap_frames_filter ch.users _ ?_ hnd m
  intro a fr hf
  by_cases e : (some ex : Option String) = some a
  · rw [if_pos e] at hf
    exact absurd hf (by simp)
  · rw [if_neg e] at hf
    cases hl : lookupA s.users a with
    | none =>
        rw [hl] at hf
        exact absurd hf (by simp)
    | some u =>
        rw [hl] at hf
        dsimp only at hf
        by_cases hs2 : u.hasStream
        · rw [if_pos hs2] at hf
          have := Option.some.inj hf
          rw [← this]
        · rw [if_neg hs2] at hf
          exact absurd hf (by simp)

/-- Claim C7 refuted on the code: with alice and bob both members of `#c`,
alice's `PRIVMSG #c :hello` writes bob exactly one frame, but that frame is
`:#c PRIVMSG bob :<alice> :hello\r\n` — the content is prefixed with
`<alice> ` (and keeps the literal `:` of the raw argument), so it does not
contain the substring `:#c PRIVMSG bob :hello` the claim names. -/
theorem channel_privmsg_frame_counterexample :
    (handleMessage sAB "a" "PRIVMSG #c :hello" 50).frames
        = [("b", ":#c PRIVMSG bob :<alice> :hello\r\n")] ∧
    ¬ (":#c PRIVMSG bob :hello".data <:+: ":#c PRIVMSG bob :<alice> :hello\r\n".data) := by
  refine ⟨by decide, by decide⟩

/-- Claim C7 amended: when the sender is a member of the target channel,
every member other than the sender that is in the user map with a stream is
written exactly one frame, namely
`:<chan> PRIVMSG <member-username> :<<sender-username>> <text>` CRLF, where
`<text>` is the raw third splitn part; the sender is written none.  When the
sender is not a member, the only frame is `ERROR :You are not in channel
<chan>` back to the sender and the channel map (hence every history) is left
as the activity-touched state. -/
theorem channel_privmsg_broadcast (s : ServerState) (uid target message : String)
    (now : Nat) (sender : User) (ch : Channel)
    (hu : lookupA s.users uid = some sender)
    (hhash : startsWithHash target = true)
    (hch : lookupA s.channels target = some ch)
    (hnd : ch.users.Nodup) :
    (target ∈ sender.channels →
      (∀ m, m ∈ ch.users → m ≠ uid →
        ∀ um, lookupA s.users m = some um → um.hasStream = true →
          ((handlePrivmsg s uid ["PRIVMSG", target, message] now).frames.filter
              (fun fr => fr.1 == m))
            = [(m, ":" ++ target ++ " PRIVMSG " ++ um.username ++ " :"
                ++ ("<" ++ sender.username ++ "> " ++ message) ++ "\r\n")]) ∧
      ((handlePrivmsg s uid ["PRIVMSG", target, message] now).frames.filter
          (fun fr => fr.1 == uid)) = []) ∧
    (target ∉ sender.channels →
      (handlePrivmsg s uid ["PRIVMSG", target, message] now).frames
          = (if sender.hasStream then
              [(uid, "ERROR :You are not in channel " ++ target ++ "\r\n")]
            else []) ∧
      (handlePrivmsg s uid ["PRIVMSG", target, message] now).state.channels
          = s.channels) := by
  constructor
  · intro hmemb
    have hr : handlePrivmsg s uid ["PRIVMSG", target, message] now
        = ⟨storeChannelMessage (touchActivity s uid now) target sender.username message now,
           broadcastToChannel
             (storeChannelMessage (touchActivity s uid now) target sender.username message now)
             target ("<" ++ sender.username ++ "> " ++ message) (some uid), [], none⟩ := by
      unfold handlePrivmsg
      rw [if_neg (by simp)]
      simp only [List.getD, List.get?, Option.getD]
      rw [hu]
      simp only [hhash]
      rw [if_pos hmemb]
      simp
    have hchS2 : lookupA (storeChannelMessage (touchActivity s uid now) target
        sender.username message now).channels target
        = some { ch with
            messages := popWhileLong (ch.messages
              ++ [ChatMessage.mk sender.username (strBytes message) now []]),
            lastActivity := now } := by
      show lookupA (updateA (touchActivity s uid now).channels target _) target = _
      rw [lookupA_updateA, if_pos rfl]
      have : lookupA (touchActivity s uid now).channels target = some ch := hch
      rw [this]
      rfl
    have husers : ∀ m, m ≠ uid →
        lookupA (storeChannelMessage (touchActivity s uid now) target
          sender.username message now).users m = lookupA s.users m := by
      intro m hm
      show lookupA (updateA s.users uid _) m = _
      rw [lookupA_updateA, if_neg hm]
    constructor
    · intro m hmem hmne um hum hstr
      rw [hr]
      dsimp only
      rw [broadcast_filter _ _ _ _ _ _ hchS2 hnd]
      rw [if_pos (show m ∈ ch.users from hmem)]
      rw [if_neg (by simp [Ne.symm hmne])]
      rw [husers m hmne, hum]
      dsimp only
      rw [if_pos hstr]
      rfl
    · rw [hr]
      dsimp only
      rw [broadcast_filter _ _ _ _ _ _ hchS2 hnd]
      by_cases hin : uid ∈ ch.users
      · rw [if_pos (show uid ∈ ch.users from hin), if_pos rfl]
        rfl
      · rw [if_neg (show ¬ uid ∈ ch.users from hin)]
  · intro hnotmemb
    have hr : handlePrivmsg s uid ["PRIVMSG", target, message] now
        = ⟨touchActivity s uid now,
           sendError (touchActivity s uid now) uid
             ("You are not in channel " ++ target), [], none⟩ := by
      unfold handlePrivmsg
      rw [if_neg (by simp)]
      simp only [List.getD, List.get?, Option.getD]
      rw [hu]
      simp only [hhash]
      rw [if_neg hnotmemb]
      simp
    rw [hr]
    constructor
    · show sendError (touchActivity s uid now) uid _ = _
      unfold sendError
      have htou : lookupA (touchActivity s uid now).users uid
          = some (match sender.session with
              | some sess => { sender with session := some (sess.updateActivity now) }
              | none => sender) := by
        show lookupA (updateA s.users uid _) uid = _
        rw [lookupA_updateA, if_pos rfl, hu]
        rfl
      rw [htou]
      cases hs2 : sender.session with
      | none => rfl
      | some sess => rfl
    · rfl

theorem channel_privmsg_broadcast_witness :
    ((handlePrivmsg sAB "a" ["PRIVMSG", "#c", ":hello"] 50).frames.filter
        (fun fr => fr.1 == "b"))
      = [("b", ":" ++ "#c" ++ " PRIVMSG " ++ "bob" ++ " :"
          ++ ("<" ++ "alice" ++ "> " ++ ":hello") ++ "\r\n")] ∧
    ((handlePrivmsg sAB "a" ["PRIVMSG", "#c", ":hello"] 50).frames.filter
        (fun fr => fr.1 == "a")) = [] := by
  have h := channel_privmsg_broadcast sAB "a" "#c" ":hello" 50
    ⟨"a", "alice", [], ["#c"], true, some ⟨"s1", "a", 0, 0, [], 0⟩, []⟩
    ⟨"#c", "", ["a", "b"], [], 0, 0⟩ rfl rfl rfl (by decide)
  obtain ⟨h1, h2⟩ := (h.1 (by decide))
  exact ⟨h1 "b" (by decide) (by decide)
    ⟨"b", "bob", [], ["#c"], true, some ⟨"s2", "b", 0, 0, [], 0⟩, []⟩ rfl rfl, h2⟩

end IRC
